import Mathlib

/-!
# openanimalrescue-api: the request-to-persistence pipeline of the Animal resource

A shallow embedding of

* `cmd/animals/main.go`      (`handleRequest`, the dispatcher),
* `pkg/animals/handler.go`   (the five handlers),
* `db/db.go`                 (the five statements of the persistence gateway),
* `models/models.go`         (the `Animal` record and its JSON tags),

together with the parts of the Go standard library the handlers go through:
`strconv.Atoi`, `encoding/json` (`Unmarshal` into an `Animal`, `Marshal` of an
`Animal` and of a slice of them) and the `database/sql` calls `Query`,
`QueryRow(...).Scan` and `Exec`.

The store behind `database/sql` is a parameter: a `Driver` over an arbitrary
state type answers each statement with rows, a result or an error, and may
change its state.  Every statement that reaches the driver is appended to the
`calls` trace of the `World`, so that "no persistence call" and "exactly one
call" are statements about that trace.  A query that does not fail at once
delivers rows and may then be cut short by an error of the store
(`Driver.rowsErr`, what `Rows.Err()` reports once `Rows.Next` has returned
false); `Row.Scan` reads that error, the loop of `GetAllAnimals` does not.
The error of closing the rows is not part of the model.

Request bodies and attribute values are Lean strings, that is, sequences of
Unicode characters: the replacement of invalid UTF-8 by U+FFFD in
`encoding/json` has no counterpart here.

Package `logging` is not among the sources.  The specification treats the
logging sink as an external collaborator that receives the detail of an error
and nothing else; accordingly a call of `logging.LogError` or
`logging.LogSuccess` has no effect on the store, on the trace of statements or
on the response, and the calls are left out of the embedding.

Go's `int` is 64 bits wide on the deployed architecture (ARM64) and is
embedded as `Int`; the two places that produce an `int` from text
(`strconv.Atoi`, the JSON number decoder) check the 64-bit range explicitly.
-/

namespace OpenAnimalRescue

/-! ## strconv -/

/-- Value of a run of decimal digits, most significant digit first. -/
def strconv.digitsValue (ds : List Char) : Nat :=
  ds.foldl (fun acc c => acc * 10 + (c.toNat - 48)) 0

/-- Go's `strconv.Atoi` on a 64-bit platform: an optional sign `+` or `-`, then
one or more decimal digits and nothing else, the value within the range of
`int64`.  `none` stands for a non-nil error (`ErrSyntax` or `ErrRange`). -/
def strconv.Atoi (s : String) : Option Int :=
  let cs := s.data
  let ds := if cs.head? = some '-' ∨ cs.head? = some '+' then cs.tail else cs
  if ds = [] then none
  else if ds.all Char.isDigit then
    let n : Int := if cs.head? = some '-' then -(strconv.digitsValue ds : Int)
                   else (strconv.digitsValue ds : Int)
    if -(2 ^ 63 : Int) ≤ n ∧ n < (2 ^ 63 : Int) then some n else none
  else none

/-- Go's `strconv.Itoa` / `strconv.AppendInt(_, n, 10)`. -/
def strconv.Itoa (n : Int) : String :=
  match n with
  | Int.ofNat m => Nat.repr m
  | Int.negSucc m => "-" ++ Nat.repr (m + 1)

/-! ## encoding/json: the scanner -/

/-- Lexical tokens of a JSON text.  A string token carries the unquoted
contents, a number token the literal as written. -/
inductive json.Token where
  | lbrace | rbrace | lbrack | rbrack | colon | comma
  | str (s : String)
  | num (lit : String)
  | tru | fls | nul
  deriving DecidableEq, Repr

/-- One unit of the contents of a string literal: a character taken as is or
from a single-character escape, or the UTF-16 code unit of a `\uXXXX` escape. -/
inductive json.Piece where
  | chr (c : Char)
  | unit (u : Nat)
  deriving DecidableEq, Repr

/-- Replacement character U+FFFD. -/
def json.replacementChar : Char := Char.ofNat 0xFFFD

/-- The character of a lone `\uXXXX` escape: surrogates become U+FFFD. -/
def json.unitChar (u : Nat) : Char :=
  if 0xD800 ≤ u ∧ u < 0xE000 then json.replacementChar else Char.ofNat u

/-- Go's `unquote` on the escapes of a string literal: a high surrogate escape
directly followed by a low surrogate escape is one character, any other
surrogate escape is U+FFFD.  `pending` is a high surrogate escape read just
before and not yet resolved. -/
def json.decodePieces : Option Nat → List json.Piece → List Char
  | none, [] => []
  | some _, [] => [json.replacementChar]
  | none, .chr c :: rest => c :: json.decodePieces none rest
  | some _, .chr c :: rest => json.replacementChar :: c :: json.decodePieces none rest
  | none, .unit u :: rest =>
    if 0xD800 ≤ u ∧ u < 0xDC00 then json.decodePieces (some u) rest
    else json.unitChar u :: json.decodePieces none rest
  | some h, .unit u :: rest =>
    if 0xDC00 ≤ u ∧ u < 0xE000 then
      Char.ofNat ((h - 0xD800) * 0x400 + (u - 0xDC00) + 0x10000) :: json.decodePieces none rest
    else if 0xD800 ≤ u ∧ u < 0xDC00 then json.replacementChar :: json.decodePieces (some u) rest
    else json.replacementChar :: json.unitChar u :: json.decodePieces none rest

/-- Value of a hexadecimal digit. -/
def json.hexVal (c : Char) : Option Nat :=
  if '0' ≤ c ∧ c ≤ '9' then some (c.toNat - 48)
  else if 'a' ≤ c ∧ c ≤ 'f' then some (c.toNat - 87)
  else if 'A' ≤ c ∧ c ≤ 'F' then some (c.toNat - 55)
  else none

/-- States of the scanner inside a number literal (`stateNeg`, `state0`,
`state1`, `stateDot`, `stateDot0`, `stateE`, `stateESign`, `stateE0`). -/
inductive json.NumState where
  | neg | zero | int | dot | frac | e | esign | exp
  deriving DecidableEq, Repr

/-- Next state of a number literal on a character, `none` when the character
does not continue the literal. -/
def json.numStep (st : json.NumState) (c : Char) : Option json.NumState :=
  match st with
  | .neg => if c = '0' then some .zero else if '1' ≤ c ∧ c ≤ '9' then some .int else none
  | .zero => if c = '.' then some .dot else if c = 'e' ∨ c = 'E' then some .e else none
  | .int =>
    if '0' ≤ c ∧ c ≤ '9' then some .int
    else if c = '.' then some .dot else if c = 'e' ∨ c = 'E' then some .e else none
  | .dot => if '0' ≤ c ∧ c ≤ '9' then some .frac else none
  | .frac => if '0' ≤ c ∧ c ≤ '9' then some .frac else if c = 'e' ∨ c = 'E' then some .e else none
  | .e => if c = '+' ∨ c = '-' then some .esign else if '0' ≤ c ∧ c ≤ '9' then some .exp else none
  | .esign => if '0' ≤ c ∧ c ≤ '9' then some .exp else none
  | .exp => if '0' ≤ c ∧ c ≤ '9' then some .exp else none

/-- States in which a number literal may end. -/
def json.numAccepting : json.NumState → Bool
  | .zero | .int | .frac | .exp => true
  | _ => false

/-- State of the scanner between and inside tokens. -/
inductive json.Lex where
  | idle
  | inString (acc : List json.Piece)
  | inStringEsc (acc : List json.Piece)
  | inStringEscU (acc : List json.Piece) (count : Nat) (value : Nat)
  | inNumber (st : json.NumState) (acc : List Char)
  | inLiteral (rest : List Char) (tok : json.Token)

/-- The scanner between tokens: white space is skipped, punctuation is a token,
a quote, a sign or digit, and `t`, `f`, `n` open a longer token.  `toks` is the
list of tokens so far, latest first. -/
def json.idleStep (toks : List json.Token) (c : Char) : Option (json.Lex × List json.Token) :=
  if c = ' ' ∨ c = '\t' ∨ c = '\r' ∨ c = '\n' then some (.idle, toks)
  else if c = '{' then some (.idle, .lbrace :: toks)
  else if c = '}' then some (.idle, .rbrace :: toks)
  else if c = '[' then some (.idle, .lbrack :: toks)
  else if c = ']' then some (.idle, .rbrack :: toks)
  else if c = ':' then some (.idle, .colon :: toks)
  else if c = ',' then some (.idle, .comma :: toks)
  else if c = '"' then some (.inString [], toks)
  else if c = '-' then some (.inNumber .neg [c], toks)
  else if c = '0' then some (.inNumber .zero [c], toks)
  else if '1' ≤ c ∧ c ≤ '9' then some (.inNumber .int [c], toks)
  else if c = 't' then some (.inLiteral ['r', 'u', 'e'] .tru, toks)
  else if c = 'f' then some (.inLiteral ['a', 'l', 's', 'e'] .fls, toks)
  else if c = 'n' then some (.inLiteral ['u', 'l', 'l'] .nul, toks)
  else none

/-- One step of the scanner; `none` is a syntax error. -/
def json.lexStep (st : json.Lex) (toks : List json.Token) (c : Char) :
    Option (json.Lex × List json.Token) :=
  match st with
  | .idle => json.idleStep toks c
  | .inString acc =>
    if c = '"' then some (.idle, .str (String.mk (json.decodePieces none acc.reverse)) :: toks)
    else if c = '\\' then some (.inStringEsc acc, toks)
    else if c.toNat < 0x20 then none
    else some (.inString (.chr c :: acc), toks)
  | .inStringEsc acc =>
    if c = '"' ∨ c = '\\' ∨ c = '/' then some (.inString (.chr c :: acc), toks)
    else if c = 'b' then some (.inString (.chr (Char.ofNat 8) :: acc), toks)
    else if c = 'f' then some (.inString (.chr (Char.ofNat 12) :: acc), toks)
    else if c = 'n' then some (.inString (.chr '\n' :: acc), toks)
    else if c = 'r' then some (.inString (.chr '\r' :: acc), toks)
    else if c = 't' then some (.inString (.chr '\t' :: acc), toks)
    else if c = 'u' then some (.inStringEscU acc 0 0, toks)
    else none
  | .inStringEscU acc count value =>
    match json.hexVal c with
    | none => none
    | some h =>
      if count = 3 then some (.inString (.unit (value * 16 + h) :: acc), toks)
      else some (.inStringEscU acc (count + 1) (value * 16 + h), toks)
  | .inNumber ns acc =>
    match json.numStep ns c with
    | some ns2 => some (.inNumber ns2 (c :: acc), toks)
    | none =>
      if json.numAccepting ns then json.idleStep (.num (String.mk acc.reverse) :: toks) c
      else none
  | .inLiteral rest tok =>
    match rest with
    | [] => none
    | [r] => if c = r then some (.idle, tok :: toks) else none
    | r :: rest2 => if c = r then some (.inLiteral rest2 tok, toks) else none

/-- Run the scanner over the remaining input and return the tokens in input
order; `none` is a syntax error (including input that ends inside a token). -/
def json.lexRun : json.Lex → List json.Token → List Char → Option (List json.Token)
  | .idle, toks, [] => some toks.reverse
  | .inNumber ns acc, toks, [] =>
    if json.numAccepting ns then some ((json.Token.num (String.mk acc.reverse) :: toks).reverse)
    else none
  | _, _, [] => none
  | st, toks, c :: cs =>
    match json.lexStep st toks c with
    | none => none
    | some (st2, toks2) => json.lexRun st2 toks2 cs

/-- Tokens of a JSON text. -/
def json.tokenize (s : String) : Option (List json.Token) :=
  json.lexRun .idle [] s.data

/-! ## encoding/json: values -/

/-- A JSON value.  Numbers keep their literal, objects keep their members in
input order (duplicates included). -/
inductive JSON where
  | null
  | bool (b : Bool)
  | num (lit : String)
  | str (s : String)
  | arr (elems : List JSON)
  | obj (members : List (String × JSON))

/-- An open container on the parse stack, its contents latest first.  An
object frame holds the key that awaits its value. -/
inductive json.Frame where
  | arr (elems : List JSON)
  | obj (members : List (String × JSON)) (key : String)

/-- What the parser accepts next. -/
inductive json.Expect where
  | value
  | valueOrClose
  | keyOrClose
  | key
  | colon
  | commaOrClose
  | done (v : JSON)

/-- Go's `maxNestingDepth`. -/
def json.maxNestingDepth : Nat := 10000

/-- A value is complete: it is the top-level value, or it joins the innermost
open container. -/
def json.complete (stack : List json.Frame) (v : JSON) : json.Expect × List json.Frame :=
  match stack with
  | [] => (.done v, [])
  | .arr es :: rest => (.commaOrClose, .arr (v :: es) :: rest)
  | .obj ms k :: rest => (.commaOrClose, .obj ((k, v) :: ms) k :: rest)

/-- A token that begins a value: a scalar completes at once, a bracket opens a
container unless the nesting limit is exceeded. -/
def json.beginValue (stack : List json.Frame) (t : json.Token) :
    Option (json.Expect × List json.Frame) :=
  match t with
  | .str s => some (json.complete stack (.str s))
  | .num lit => some (json.complete stack (.num lit))
  | .tru => some (json.complete stack (.bool true))
  | .fls => some (json.complete stack (.bool false))
  | .nul => some (json.complete stack .null)
  | .lbrack =>
    if stack.length + 1 ≤ json.maxNestingDepth then some (.valueOrClose, .arr [] :: stack)
    else none
  | .lbrace =>
    if stack.length + 1 ≤ json.maxNestingDepth then some (.keyOrClose, .obj [] "" :: stack)
    else none
  | _ => none

/-- One step of the parser over a token; `none` is a syntax error. -/
def json.parseStep (ex : json.Expect) (stack : List json.Frame) (t : json.Token) :
    Option (json.Expect × List json.Frame) :=
  match ex with
  | .value => json.beginValue stack t
  | .valueOrClose =>
    match t, stack with
    | .rbrack, .arr es :: rest => some (json.complete rest (.arr es.reverse))
    | _, _ => json.beginValue stack t
  | .keyOrClose =>
    match t, stack with
    | .rbrace, .obj ms _ :: rest => some (json.complete rest (.obj ms.reverse))
    | .str k, .obj ms _ :: rest => some (.colon, .obj ms k :: rest)
    | _, _ => none
  | .key =>
    match t, stack with
    | .str k, .obj ms _ :: rest => some (.colon, .obj ms k :: rest)
    | _, _ => none
  | .colon =>
    match t with
    | .colon => some (.value, stack)
    | _ => none
  | .commaOrClose =>
    match t, stack with
    | .comma, .arr es :: rest => some (.value, .arr es :: rest)
    | .comma, .obj ms k :: rest => some (.key, .obj ms k :: rest)
    | .rbrack, .arr es :: rest => some (json.complete rest (.arr es.reverse))
    | .rbrace, .obj ms _ :: rest => some (json.complete rest (.obj ms.reverse))
    | _, _ => none
  | .done _ => none

/-- Run the parser over the tokens: exactly one top-level value. -/
def json.parseRun : json.Expect → List json.Frame → List json.Token → Option JSON
  | .done v, _, [] => some v
  | _, _, [] => none
  | ex, stack, t :: ts =>
    match json.parseStep ex stack t with
    | none => none
    | some (ex2, stack2) => json.parseRun ex2 stack2 ts

/-- The value of a JSON text, `none` when the text is not valid JSON (what
Go's `checkValid` rejects). -/
def json.parse (s : String) : Option JSON :=
  match json.tokenize s with
  | none => none
  | some ts => json.parseRun .value [] ts

/-! ## models -/

/-- The `Animal` record of `models/models.go`; a pointer field is an `Option`,
`none` being the nil pointer. -/
structure models.Animal where
  ID : Int
  Name : String
  Species : String
  Breed : Option String
  Age : Option Int
  Sex : Option String
  Description : Option String
  ArrivalDate : String
  HealthStatus : Option String
  SterilisationStatus : Option Bool
  ChipNumber : Option String
  InternalNotes : Option String
  ReasonOnboarded : Option String
  LatestVaccinationDate : Option String
  CurrentLocation : Option String
  Status : String
  deriving DecidableEq, Repr

/-- The zero value of `models.Animal` (`var animal models.Animal`). -/
def models.Animal.zero : models.Animal :=
  { ID := 0, Name := "", Species := "", Breed := none, Age := none, Sex := none,
    Description := none, ArrivalDate := "", HealthStatus := none,
    SterilisationStatus := none, ChipNumber := none, InternalNotes := none,
    ReasonOnboarded := none, LatestVaccinationDate := none, CurrentLocation := none,
    Status := "" }

/-- The fields of `models.Animal`, in the order of the struct declaration. -/
inductive models.Field where
  | ID | Name | Species | Breed | Age | Sex | Description | ArrivalDate
  | HealthStatus | SterilisationStatus | ChipNumber | InternalNotes
  | ReasonOnboarded | LatestVaccinationDate | CurrentLocation | Status
  deriving DecidableEq, Repr

/-- All fields, in declaration order (the order in which `encoding/json` walks
the struct). -/
def models.Field.all : List models.Field :=
  [.ID, .Name, .Species, .Breed, .Age, .Sex, .Description, .ArrivalDate,
   .HealthStatus, .SterilisationStatus, .ChipNumber, .InternalNotes,
   .ReasonOnboarded, .LatestVaccinationDate, .CurrentLocation, .Status]

/-- The key of the field's `json` struct tag. -/
def models.Field.jsonName : models.Field → String
  | .ID => "id"
  | .Name => "name"
  | .Species => "species"
  | .Breed => "breed"
  | .Age => "age"
  | .Sex => "sex"
  | .Description => "description"
  | .ArrivalDate => "arrivalDate"
  | .HealthStatus => "healthStatus"
  | .SterilisationStatus => "sterilisationStatus"
  | .ChipNumber => "chipNumber"
  | .InternalNotes => "internalNotes"
  | .ReasonOnboarded => "reasonOnboarded"
  | .LatestVaccinationDate => "latestVaccinationDate"
  | .CurrentLocation => "currentLocation"
  | .Status => "status"

/-- Whether the field's `json` struct tag carries `omitempty`. -/
def models.Field.omitEmpty : models.Field → Bool
  | .ID | .Name | .Species | .ArrivalDate | .Status => false
  | _ => true

/-- A Go value of one of the five field types of `models.Animal`. -/
inductive GoValue where
  | int (n : Int)
  | string (s : String)
  | stringPtr (p : Option String)
  | intPtr (p : Option Int)
  | boolPtr (p : Option Bool)
  deriving DecidableEq, Repr

/-- The value of a field of an animal (`reflect.Value.Field`). -/
def models.Animal.field (a : models.Animal) : models.Field → GoValue
  | .ID => .int a.ID
  | .Name => .string a.Name
  | .Species => .string a.Species
  | .Breed => .stringPtr a.Breed
  | .Age => .intPtr a.Age
  | .Sex => .stringPtr a.Sex
  | .Description => .stringPtr a.Description
  | .ArrivalDate => .string a.ArrivalDate
  | .HealthStatus => .stringPtr a.HealthStatus
  | .SterilisationStatus => .boolPtr a.SterilisationStatus
  | .ChipNumber => .stringPtr a.ChipNumber
  | .InternalNotes => .stringPtr a.InternalNotes
  | .ReasonOnboarded => .stringPtr a.ReasonOnboarded
  | .LatestVaccinationDate => .stringPtr a.LatestVaccinationDate
  | .CurrentLocation => .stringPtr a.CurrentLocation
  | .Status => .string a.Status

/-! ## encoding/json: decoding into an Animal -/

/-- Errors of `json.Unmarshal` and `json.Marshal`: a `SyntaxError`, or an
`UnmarshalTypeError` on the whole value (`field = none`) or on a field. -/
inductive json.Error where
  | malformed
  | type (field : Option models.Field)
  deriving DecidableEq, Repr

/-- Go's `foldRune` on the characters that matter for ASCII field names: the
least character of the simple-folding orbit.  Lower-case ASCII letters fold to
upper case, and U+017F and U+212A, the only characters outside ASCII whose orbit
contains an ASCII letter, fold to `S` and `K`.  (No other character folds to an
ASCII one, so leaving the rest in place does not change which keys match the
names of `models.Animal`.) -/
def json.foldRune (c : Char) : Char :=
  if 'a' ≤ c ∧ c ≤ 'z' then Char.ofNat (c.toNat - 32)
  else if c = Char.ofNat 0x17F then 'S'
  else if c = Char.ofNat 0x212A then 'K'
  else c

/-- Go's `foldName`. -/
def json.foldName (s : String) : String :=
  String.mk (s.data.map json.foldRune)

/-- The field an object key is stored into: the field whose name is exactly the
key, else the one whose folded name equals the folded key; `none` when the key
matches no field and is skipped. -/
def json.fieldOf (key : String) : Option models.Field :=
  match models.Field.all.find? (fun f => f.jsonName = key) with
  | some f => some f
  | none => models.Field.all.find? (fun f => json.foldName f.jsonName = json.foldName key)

/-- Storing a JSON value into an `int`: `null` leaves the target unchanged, a
number literal must be an integer within 64 bits. -/
def json.storeInt (f : models.Field) (cur : Int) : JSON → Except json.Error Int
  | .null => .ok cur
  | .num lit =>
    match strconv.Atoi lit with
    | some n => .ok n
    | none => .error (.type (some f))
  | _ => .error (.type (some f))

/-- Storing a JSON value into a `string`: `null` leaves the target unchanged. -/
def json.storeString (f : models.Field) (cur : String) : JSON → Except json.Error String
  | .null => .ok cur
  | .str s => .ok s
  | _ => .error (.type (some f))

/-- Storing a JSON value into a `*string`: `null` sets the nil pointer. -/
def json.storeStringPtr (f : models.Field) : JSON → Except json.Error (Option String)
  | .null => .ok none
  | .str s => .ok (some s)
  | _ => .error (.type (some f))

/-- Storing a JSON value into a `*int`: `null` sets the nil pointer. -/
def json.storeIntPtr (f : models.Field) : JSON → Except json.Error (Option Int)
  | .null => .ok none
  | .num lit =>
    match strconv.Atoi lit with
    | some n => .ok (some n)
    | none => .error (.type (some f))
  | _ => .error (.type (some f))

/-- Storing a JSON value into a `*bool`: `null` sets the nil pointer. -/
def json.storeBoolPtr (f : models.Field) : JSON → Except json.Error (Option Bool)
  | .null => .ok none
  | .bool b => .ok (some b)
  | _ => .error (.type (some f))

/-- Storing the value of one object member into the field it names. -/
def json.storeField (a : models.Animal) (f : models.Field) (v : JSON) :
    Except json.Error models.Animal :=
  match f with
  | .ID => (json.storeInt f a.ID v).map (fun x => { a with ID := x })
  | .Name => (json.storeString f a.Name v).map (fun x => { a with Name := x })
  | .Species => (json.storeString f a.Species v).map (fun x => { a with Species := x })
  | .Breed => (json.storeStringPtr f v).map (fun x => { a with Breed := x })
  | .Age => (json.storeIntPtr f v).map (fun x => { a with Age := x })
  | .Sex => (json.storeStringPtr f v).map (fun x => { a with Sex := x })
  | .Description => (json.storeStringPtr f v).map (fun x => { a with Description := x })
  | .ArrivalDate => (json.storeString f a.ArrivalDate v).map (fun x => { a with ArrivalDate := x })
  | .HealthStatus => (json.storeStringPtr f v).map (fun x => { a with HealthStatus := x })
  | .SterilisationStatus =>
    (json.storeBoolPtr f v).map (fun x => { a with SterilisationStatus := x })
  | .ChipNumber => (json.storeStringPtr f v).map (fun x => { a with ChipNumber := x })
  | .InternalNotes => (json.storeStringPtr f v).map (fun x => { a with InternalNotes := x })
  | .ReasonOnboarded => (json.storeStringPtr f v).map (fun x => { a with ReasonOnboarded := x })
  | .LatestVaccinationDate =>
    (json.storeStringPtr f v).map (fun x => { a with LatestVaccinationDate := x })
  | .CurrentLocation => (json.storeStringPtr f v).map (fun x => { a with CurrentLocation := x })
  | .Status => (json.storeString f a.Status v).map (fun x => { a with Status := x })

/-- Decoding the members of an object into an animal, in input order: a key
that matches no field is skipped, a later duplicate overrides an earlier one.
The first type error is the error of the whole decoding. -/
def json.decodeObject : List (String × JSON) → models.Animal → Except json.Error models.Animal
  | [], a => .ok a
  | (k, v) :: rest, a =>
    match json.fieldOf k with
    | none => json.decodeObject rest a
    | some f =>
      match json.storeField a f v with
      | .error e => .error e
      | .ok a2 => json.decodeObject rest a2

/-- Go's `json.Unmarshal(data, &v)` at `v : models.Animal`: the text must be
valid JSON; `null` leaves `v` unchanged, an object is decoded member by member
and any other value is a type error. -/
def json.Unmarshal (data : String) (v : models.Animal) : Except json.Error models.Animal :=
  match json.parse data with
  | none => .error .malformed
  | some .null => .ok v
  | some (.obj ms) => json.decodeObject ms v
  | some _ => .error (.type none)

/-! ## encoding/json: encoding -/

/-- Lower-case hexadecimal digit of a value below 16. -/
def json.hexDigit (n : Nat) : Char :=
  if n < 10 then Char.ofNat (48 + n) else Char.ofNat (87 + n)

/-- The escape `\u00XX` or `\uXXXX` of a code point below 0x10000. -/
def json.escapeU (n : Nat) : List Char :=
  ['\\', 'u', json.hexDigit (n / 4096 % 16), json.hexDigit (n / 256 % 16),
   json.hexDigit (n / 16 % 16), json.hexDigit (n % 16)]

/-- The encoding of one character inside a string, with HTML escaping on as in
`json.Marshal`: quote and backslash are escaped, control characters, `<`, `>`,
`&`, U+2028 and U+2029 are written as `\u` escapes (`\b`, `\f`, `\n`, `\r`, `\t`
have their short forms, as from Go 1.22). -/
def json.escapeChar (c : Char) : List Char :=
  if c = '"' then ['\\', '"']
  else if c = '\\' then ['\\', '\\']
  else if c = Char.ofNat 8 then ['\\', 'b']
  else if c = Char.ofNat 12 then ['\\', 'f']
  else if c = '\n' then ['\\', 'n']
  else if c = '\r' then ['\\', 'r']
  else if c = '\t' then ['\\', 't']
  else if c.toNat < 0x20 ∨ c = '<' ∨ c = '>' ∨ c = '&' ∨ c.toNat = 0x2028 ∨ c.toNat = 0x2029 then
    json.escapeU c.toNat
  else [c]

/-- A string as a JSON string literal. -/
def json.quote (s : String) : String :=
  String.mk ('"' :: (s.data.flatMap json.escapeChar ++ ['"']))

/-- The text of a scalar JSON value or of an object or array of scalars and
containers, by mutual recursion over the value. -/
def JSON.render : JSON → String
  | .null => "null"
  | .bool b => if b then "true" else "false"
  | .num lit => lit
  | .str s => json.quote s
  | .arr es => "[" ++ String.intercalate "," (renderList es) ++ "]"
  | .obj ms => "\x7b" ++ String.intercalate "," (renderMembers ms) ++ "\x7d"
where
  /-- The texts of the elements of an array. -/
  renderList : List JSON → List String
    | [] => []
    | e :: es => e.render :: renderList es
  /-- The texts `"key":value` of the members of an object. -/
  renderMembers : List (String × JSON) → List String
    | [] => []
    | (k, v) :: ms => (json.quote k ++ ":" ++ v.render) :: renderMembers ms

/-- Go's `isEmptyValue` on the field types of `models.Animal`. -/
def json.isEmptyValue : GoValue → Bool
  | .int n => n = 0
  | .string s => s = ""
  | .stringPtr p => p.isNone
  | .intPtr p => p.isNone
  | .boolPtr p => p.isNone

/-- The JSON value of a Go value; a nil pointer encodes as `null`. -/
def json.encodeValue : GoValue → JSON
  | .int n => .num (strconv.Itoa n)
  | .string s => .str s
  | .stringPtr none => .null
  | .stringPtr (some s) => .str s
  | .intPtr none => .null
  | .intPtr (some n) => .num (strconv.Itoa n)
  | .boolPtr none => .null
  | .boolPtr (some b) => .bool b

/-- The members the struct encoder writes for an animal: the fields in
declaration order, a field tagged `omitempty` being skipped when its value is
empty. -/
def json.members (a : models.Animal) : List (String × JSON) :=
  models.Field.all.filterMap (fun f =>
    if f.omitEmpty && json.isEmptyValue (a.field f) then none
    else some (f.jsonName, json.encodeValue (a.field f)))

/-- The JSON value of an animal. -/
def json.encodeAnimal (a : models.Animal) : JSON :=
  .obj (json.members a)

/-- The JSON value of a slice of animals: a nil slice is `null`.  The slices
the handlers encode are nil exactly when they have no element. -/
def json.encodeAnimals (as : List models.Animal) : JSON :=
  match as with
  | [] => .null
  | _ => .arr (as.map json.encodeAnimal)

/-- Go's `json.Marshal` at `models.Animal`; encoding these field types never
fails. -/
def json.MarshalAnimal (a : models.Animal) : Except json.Error String :=
  .ok (json.encodeAnimal a).render

/-- Go's `json.Marshal` at `[]models.Animal`. -/
def json.MarshalAnimals (as : List models.Animal) : Except json.Error String :=
  .ok (json.encodeAnimals as).render

/-! ## database/sql -/

/-- A value bound to a statement parameter or held by a result column
(`driver.Value`): NULL, an integer, a text or a boolean. -/
inductive sql.Value where
  | null
  | int (n : Int)
  | text (s : String)
  | bool (b : Bool)
  deriving DecidableEq, Repr

/-- A result row. -/
abbrev sql.Row := List sql.Value

/-- A statement as it reaches the store, by the `database/sql` method used. -/
inductive sql.Call where
  | Query (query : String) (args : List sql.Value)
  | QueryRow (query : String) (args : List sql.Value)
  | Exec (query : String) (args : List sql.Value)
  deriving DecidableEq, Repr

/-- The store behind `database/sql`, over a state of type `σ`.  A query answers
with the rows it delivers, or with an error when the statement fails before
any row; `rowsErr` is the error, if any, that ended the delivery of those rows
(`none` when the result was delivered to its end).  An exec answers with the
number of rows affected or an error.  Query and exec may change the state. -/
structure sql.Driver (σ : Type) where
  query : σ → String → List sql.Value → Except String (List sql.Row) × σ
  rowsErr : σ → String → List sql.Value → Option String
  exec : σ → String → List sql.Value → Except String Nat × σ

/-- The state a request runs in: the state of the store and the trace of the
statements sent to it, oldest first. -/
structure World (σ : Type) where
  store : σ
  calls : List sql.Call

/-- The parameter a Go argument is bound as (`driver.DefaultParameterConverter`):
a nil pointer is NULL, a non-nil pointer its pointee. -/
def sql.bind : GoValue → sql.Value
  | .int n => .int n
  | .string s => .text s
  | .stringPtr none => .null
  | .stringPtr (some s) => .text s
  | .intPtr none => .null
  | .intPtr (some n) => .int n
  | .boolPtr none => .null
  | .boolPtr (some b) => .bool b

/-- The errors the `database/sql` calls of the gateway return: the error of the
store, with its text; `sql.ErrNoRows`; the error of `Rows.Scan` on the column
with the given index (from 0), whose conversion failed; the error of
`Rows.Scan` on a row of `columns` columns given `dest` destinations. -/
inductive sql.Error where
  | store (text : String)
  | noRows
  | scan (column : Nat)
  | destinations (columns : Nat) (dest : Nat)
  deriving DecidableEq, Repr

/-- `sql.ErrNoRows`. -/
def sql.ErrNoRows : sql.Error := .noRows

/-- `convertAssign` to a `string` destination; `none` is a conversion error
(NULL has no conversion to `string`). -/
def sql.convertString : sql.Value → Option String
  | .null => none
  | .text s => some s
  | .int n => some (strconv.Itoa n)
  | .bool b => some (if b then "true" else "false")

/-- `convertAssign` to an `int` destination: the source is brought to text and
parsed; an integer source is its own value; `none` is a conversion error. -/
def sql.convertInt : sql.Value → Option Int
  | .null => none
  | .int n => some n
  | .text s => strconv.Atoi s
  | .bool _ => none

/-- `convertAssign` to a `bool` destination (`driver.Bool.ConvertValue`); `none`
is a conversion error. -/
def sql.convertBool : sql.Value → Option Bool
  | .null => none
  | .bool b => some b
  | .int n => if n = 1 then some true else if n = 0 then some false else none
  | .text s =>
    if s = "1" ∨ s = "t" ∨ s = "T" ∨ s = "TRUE" ∨ s = "true" ∨ s = "True" then some true
    else if s = "0" ∨ s = "f" ∨ s = "F" ∨ s = "FALSE" ∨ s = "false" ∨ s = "False" then some false
    else none

/-- `convertAssign` to a pointer destination: NULL sets the nil pointer, any
other source is converted into a fresh pointee. -/
def sql.convertPtr {α : Type} (conv : sql.Value → Option α) : sql.Value → Option (Option α)
  | .null => some none
  | v => (conv v).map some

/-- The outcome of `Rows.Scan` for the column with index `i`: a conversion
error is the scan error of that column. -/
def sql.column {α : Type} (i : Nat) (converted : Option α) : Except sql.Error α :=
  match converted with
  | none => .error (.scan i)
  | some x => .ok x

/-- `Rows.Scan(&id)`: one destination of type `int`. -/
def sql.scanID (row : sql.Row) : Except sql.Error Int :=
  match row with
  | [c] => sql.column 0 (sql.convertInt c)
  | _ => .error (.destinations row.length 1)

/-- `Rows.Scan` with the sixteen destinations `&animal.ID, &animal.Name,
&animal.Species, &animal.Breed, &animal.Age, &animal.Sex, &animal.Description,
&animal.ArrivalDate, &animal.HealthStatus, &animal.SterilisationStatus,
&animal.ChipNumber, &animal.InternalNotes, &animal.ReasonOnboarded,
&animal.LatestVaccinationDate, &animal.CurrentLocation, &animal.Status` of
`GetAllAnimals` and `GetAnimalByID`: the row must have sixteen columns, which
are converted in order, the first failure being the error. -/
def sql.scanAnimal (row : sql.Row) : Except sql.Error models.Animal :=
  match row with
  | [c0, c1, c2, c3, c4, c5, c6, c7, c8, c9, c10, c11, c12, c13, c14, c15] => do
    let id ← sql.column 0 (sql.convertInt c0)
    let name ← sql.column 1 (sql.convertString c1)
    let species ← sql.column 2 (sql.convertString c2)
    let breed ← sql.column 3 (sql.convertPtr sql.convertString c3)
    let age ← sql.column 4 (sql.convertPtr sql.convertInt c4)
    let sex ← sql.column 5 (sql.convertPtr sql.convertString c5)
    let description ← sql.column 6 (sql.convertPtr sql.convertString c6)
    let arrivalDate ← sql.column 7 (sql.convertString c7)
    let healthStatus ← sql.column 8 (sql.convertPtr sql.convertString c8)
    let sterilisationStatus ← sql.column 9 (sql.convertPtr sql.convertBool c9)
    let chipNumber ← sql.column 10 (sql.convertPtr sql.convertString c10)
    let internalNotes ← sql.column 11 (sql.convertPtr sql.convertString c11)
    let reasonOnboarded ← sql.column 12 (sql.convertPtr sql.convertString c12)
    let latestVaccinationDate ← sql.column 13 (sql.convertPtr sql.convertString c13)
    let currentLocation ← sql.column 14 (sql.convertPtr sql.convertString c14)
    let status ← sql.column 15 (sql.convertString c15)
    pure { ID := id, Name := name, Species := species, Breed := breed, Age := age, Sex := sex,
           Description := description, ArrivalDate := arrivalDate, HealthStatus := healthStatus,
           SterilisationStatus := sterilisationStatus, ChipNumber := chipNumber,
           InternalNotes := internalNotes, ReasonOnboarded := reasonOnboarded,
           LatestVaccinationDate := latestVaccinationDate, CurrentLocation := currentLocation,
           Status := status }
  | _ => .error (.destinations row.length 16)

/-- The value `*sql.Rows` of a query that did not fail at once: the rows that
`Rows.Next` delivers, in order, and what `Rows.Err()` reports once `Next` has
returned false: `none` when the result was read to its end, the error of the
store when the iteration was cut short. -/
structure sql.Rows where
  rows : List sql.Row
  err : Option sql.Error

/-- The answer of the store to a query as `database/sql` hands it on. -/
def sql.answer {σ : Type} (drv : sql.Driver σ) (query : String) (args : List sql.Value)
    (w : World σ) : Except sql.Error sql.Rows :=
  match (drv.query w.store query args).1 with
  | .error e => .error (.store e)
  | .ok rows => .ok { rows := rows, err := (drv.rowsErr w.store query args).map sql.Error.store }

/-- `DB.Query`: the statement goes to the store and is recorded. -/
def sql.DB.Query {σ : Type} (drv : sql.Driver σ) (query : String) (args : List sql.Value)
    (w : World σ) : Except sql.Error sql.Rows × World σ :=
  (sql.answer drv query args w,
   { store := (drv.query w.store query args).2, calls := w.calls ++ [.Query query args] })

/-- `DB.QueryRow`: as `DB.Query`; the error, if any, is kept for `Row.Scan`. -/
def sql.DB.QueryRow {σ : Type} (drv : sql.Driver σ) (query : String) (args : List sql.Value)
    (w : World σ) : Except sql.Error sql.Rows × World σ :=
  (sql.answer drv query args w,
   { store := (drv.query w.store query args).2, calls := w.calls ++ [.QueryRow query args] })

/-- `DB.Exec`: the statement goes to the store and is recorded. -/
def sql.DB.Exec {σ : Type} (drv : sql.Driver σ) (query : String) (args : List sql.Value)
    (w : World σ) : Except sql.Error Nat × World σ :=
  (match (drv.exec w.store query args).1 with
   | .error e => .error (.store e)
   | .ok affected => .ok affected,
   { store := (drv.exec w.store query args).2, calls := w.calls ++ [.Exec query args] })

/-- `Row.Scan`: the error of the query; when `Next` delivers no row, what
`Rows.Err()` reports, or `ErrNoRows` when it reports nothing; else the scan of
the first row.  (Closing the rows after the scan is taken to succeed.) -/
def sql.Row.Scan {α : Type} (r : Except sql.Error sql.Rows)
    (scan : sql.Row → Except sql.Error α) : Except sql.Error α :=
  match r with
  | .error e => .error e
  | .ok { rows := [], err := some e } => .error e
  | .ok { rows := [], err := none } => .error sql.ErrNoRows
  | .ok { rows := row :: _, err := _ } => scan row

/-! ## db/db.go: the persistence gateway -/

/-- The loop `for rows.Next() { rows.Scan(...); animals = append(animals, animal) }`
of `GetAllAnimals` over the rows that `Next` delivers: the first row that fails
to scan ends it with that error; when `Next` returns false the loop ends and
the animals scanned so far are the result. -/
def db.scanAll : List sql.Row → List models.Animal → Except sql.Error (List models.Animal)
  | [], animals => .ok animals
  | row :: rest, animals =>
    match sql.scanAnimal row with
    | .error e => .error e
    | .ok animal => db.scanAll rest (animals ++ [animal])

/-- `db.GetAllAnimals`.  After the loop the function returns `animals, nil`:
`rows.Err()` is not read, so `rows.err` plays no part in the result. -/
def db.GetAllAnimals {σ : Type} (drv : sql.Driver σ) (w : World σ) :
    Except sql.Error (List models.Animal) × World σ :=
  match (sql.DB.Query drv "SELECT * FROM Animals" [] w).1 with
  | .error err => (.error err, (sql.DB.Query drv "SELECT * FROM Animals" [] w).2)
  | .ok rows => (db.scanAll rows.rows [], (sql.DB.Query drv "SELECT * FROM Animals" [] w).2)

/-- The text of the insert statement of `db.CreateAnimal`. -/
def db.insertSQL : String :=
  "INSERT INTO Animals (name, species, breed, age, sex, description, arrivalDate, healthStatus, sterilisationStatus, chipNumber, internalNotes, reasonOnboarded, latestVaccinationDate, currentLocation, status) VALUES ($1, $2, $3, $4, $5, $6, $7, $8, $9, $10, $11, $12, $13, $14, $15) RETURNING id"

/-- The arguments `animal.Name, animal.Species, animal.Breed, animal.Age,
animal.Sex, animal.Description, animal.ArrivalDate, animal.HealthStatus,
animal.SterilisationStatus, animal.ChipNumber, animal.InternalNotes,
animal.ReasonOnboarded, animal.LatestVaccinationDate, animal.CurrentLocation,
animal.Status` of the insert and update statements, as bound. -/
def db.animalArgs (animal : models.Animal) : List sql.Value :=
  [sql.bind (.string animal.Name), sql.bind (.string animal.Species),
   sql.bind (.stringPtr animal.Breed), sql.bind (.intPtr animal.Age),
   sql.bind (.stringPtr animal.Sex), sql.bind (.stringPtr animal.Description),
   sql.bind (.string animal.ArrivalDate), sql.bind (.stringPtr animal.HealthStatus),
   sql.bind (.boolPtr animal.SterilisationStatus), sql.bind (.stringPtr animal.ChipNumber),
   sql.bind (.stringPtr animal.InternalNotes), sql.bind (.stringPtr animal.ReasonOnboarded),
   sql.bind (.stringPtr animal.LatestVaccinationDate),
   sql.bind (.stringPtr animal.CurrentLocation), sql.bind (.string animal.Status)]

/-- `db.CreateAnimal`. -/
def db.CreateAnimal {σ : Type} (drv : sql.Driver σ) (animal : models.Animal) (w : World σ) :
    Except sql.Error models.Animal × World σ :=
  match sql.Row.Scan (sql.DB.QueryRow drv db.insertSQL (db.animalArgs animal) w).1 sql.scanID with
  | .error err => (.error err, (sql.DB.QueryRow drv db.insertSQL (db.animalArgs animal) w).2)
  | .ok id =>
    (.ok { animal with ID := id }, (sql.DB.QueryRow drv db.insertSQL (db.animalArgs animal) w).2)

/-- `db.GetAnimalByID`. -/
def db.GetAnimalByID {σ : Type} (drv : sql.Driver σ) (id : Int) (w : World σ) :
    Except sql.Error models.Animal × World σ :=
  match sql.Row.Scan
      (sql.DB.QueryRow drv "SELECT * FROM Animals WHERE id = $1" [sql.bind (.int id)] w).1
      sql.scanAnimal with
  | .error err =>
    (.error err, (sql.DB.QueryRow drv "SELECT * FROM Animals WHERE id = $1" [sql.bind (.int id)] w).2)
  | .ok animal =>
    (.ok animal, (sql.DB.QueryRow drv "SELECT * FROM Animals WHERE id = $1" [sql.bind (.int id)] w).2)

/-- The text of the update statement of `db.UpdateAnimal`. -/
def db.updateSQL : String :=
  "UPDATE Animals SET name=$1, species=$2, breed=$3, age=$4, sex=$5, description=$6, arrivalDate=$7, healthStatus=$8, sterilisationStatus=$9, chipNumber=$10, internalNotes=$11, reasonOnboarded=$12, latestVaccinationDate=$13, currentLocation=$14, status=$15 WHERE id=$16"

/-- `db.UpdateAnimal`. -/
def db.UpdateAnimal {σ : Type} (drv : sql.Driver σ) (id : Int) (animal : models.Animal)
    (w : World σ) : Except sql.Error models.Animal × World σ :=
  match (sql.DB.Exec drv db.updateSQL (db.animalArgs animal ++ [sql.bind (.int id)]) w).1 with
  | .error err =>
    (.error err, (sql.DB.Exec drv db.updateSQL (db.animalArgs animal ++ [sql.bind (.int id)]) w).2)
  | .ok _ =>
    (.ok { animal with ID := id },
     (sql.DB.Exec drv db.updateSQL (db.animalArgs animal ++ [sql.bind (.int id)]) w).2)

/-- `db.DeleteAnimal`; `none` is the nil error. -/
def db.DeleteAnimal {σ : Type} (drv : sql.Driver σ) (id : Int) (w : World σ) :
    Option sql.Error × World σ :=
  match (sql.DB.Exec drv "DELETE FROM Animals WHERE id = $1" [sql.bind (.int id)] w).1 with
  | .error err =>
    (some err, (sql.DB.Exec drv "DELETE FROM Animals WHERE id = $1" [sql.bind (.int id)] w).2)
  | .ok _ => (none, (sql.DB.Exec drv "DELETE FROM Animals WHERE id = $1" [sql.bind (.int id)] w).2)

/-! ## events and net/http -/

/-- The fields of `events.APIGatewayProxyRequest` the dispatcher reads.
`PathParameters` is a Go map, here an association list read by `List.lookup`. -/
structure events.APIGatewayProxyRequest where
  HTTPMethod : String
  PathParameters : List (String × String)
  Body : String
  deriving DecidableEq, Repr

/-- The response envelope `events.APIGatewayProxyResponse`; the fields the
handlers never set keep their zero value. -/
structure events.APIGatewayProxyResponse where
  StatusCode : Int := 0
  Headers : List (String × String) := []
  Body : String := ""
  deriving DecidableEq, Repr

/-- `http.StatusOK`. -/
def http.StatusOK : Int := 200
/-- `http.StatusCreated`. -/
def http.StatusCreated : Int := 201
/-- `http.StatusNoContent`. -/
def http.StatusNoContent : Int := 204
/-- `http.StatusBadRequest`. -/
def http.StatusBadRequest : Int := 400
/-- `http.StatusInternalServerError`. -/
def http.StatusInternalServerError : Int := 500

/-! ## pkg/animals/handler.go -/

/-- `animals.GetAnimals`. -/
def animals.GetAnimals {σ : Type} (drv : sql.Driver σ) (w : World σ) :
    events.APIGatewayProxyResponse × World σ :=
  match (db.GetAllAnimals drv w).1 with
  | .error _ =>
    ({ StatusCode := http.StatusInternalServerError, Body := "Failed to fetch animals" },
     (db.GetAllAnimals drv w).2)
  | .ok animals =>
    match json.MarshalAnimals animals with
    | .error _ =>
      ({ StatusCode := http.StatusInternalServerError, Body := "Failed to marshal animals" },
       (db.GetAllAnimals drv w).2)
    | .ok body => ({ StatusCode := http.StatusOK, Body := body }, (db.GetAllAnimals drv w).2)

/-- `animals.CreateAnimal`. -/
def animals.CreateAnimal {σ : Type} (drv : sql.Driver σ) (requestBody : String) (w : World σ) :
    events.APIGatewayProxyResponse × World σ :=
  match json.Unmarshal requestBody models.Animal.zero with
  | .error _ => ({ StatusCode := http.StatusBadRequest, Body := "Invalid request body" }, w)
  | .ok animal =>
    match (db.CreateAnimal drv animal w).1 with
    | .error _ =>
      ({ StatusCode := http.StatusInternalServerError, Body := "Failed to create animal" },
       (db.CreateAnimal drv animal w).2)
    | .ok createdAnimal =>
      match json.MarshalAnimal createdAnimal with
      | .error _ =>
        ({ StatusCode := http.StatusInternalServerError,
           Body := "Failed to marshal created animal" },
         (db.CreateAnimal drv animal w).2)
      | .ok body =>
        ({ StatusCode := http.StatusCreated, Body := body }, (db.CreateAnimal drv animal w).2)

/-- `animals.GetAnimalByID`. -/
def animals.GetAnimalByID {σ : Type} (drv : sql.Driver σ) (id : Int) (w : World σ) :
    events.APIGatewayProxyResponse × World σ :=
  match (db.GetAnimalByID drv id w).1 with
  | .error _ =>
    ({ StatusCode := http.StatusInternalServerError, Body := "Failed to fetch animal by ID" },
     (db.GetAnimalByID drv id w).2)
  | .ok animal =>
    match json.MarshalAnimal animal with
    | .error _ =>
      ({ StatusCode := http.StatusInternalServerError, Body := "Failed to marshal animal" },
       (db.GetAnimalByID drv id w).2)
    | .ok body => ({ StatusCode := http.StatusOK, Body := body }, (db.GetAnimalByID drv id w).2)

/-- `animals.UpdateAnimal`. -/
def animals.UpdateAnimal {σ : Type} (drv : sql.Driver σ) (id : Int) (requestBody : String)
    (w : World σ) : events.APIGatewayProxyResponse × World σ :=
  match json.Unmarshal requestBody models.Animal.zero with
  | .error _ => ({ StatusCode := http.StatusBadRequest, Body := "Invalid request body" }, w)
  | .ok animal =>
    match (db.UpdateAnimal drv id animal w).1 with
    | .error _ =>
      ({ StatusCode := http.StatusInternalServerError, Body := "Failed to update animal" },
       (db.UpdateAnimal drv id animal w).2)
    | .ok updatedAnimal =>
      match json.MarshalAnimal updatedAnimal with
      | .error _ =>
        ({ StatusCode := http.StatusInternalServerError,
           Body := "Failed to marshal updated animal" },
         (db.UpdateAnimal drv id animal w).2)
      | .ok body =>
        ({ StatusCode := http.StatusOK, Body := body }, (db.UpdateAnimal drv id animal w).2)

/-- `animals.DeleteAnimal`. -/
def animals.DeleteAnimal {σ : Type} (drv : sql.Driver σ) (id : Int) (w : World σ) :
    events.APIGatewayProxyResponse × World σ :=
  match (db.DeleteAnimal drv id w).1 with
  | some _ =>
    ({ StatusCode := http.StatusInternalServerError, Body := "Failed to delete animal" },
     (db.DeleteAnimal drv id w).2)
  | none => ({ StatusCode := http.StatusNoContent }, (db.DeleteAnimal drv id w).2)

/-! ## cmd/animals/main.go -/

/-- The result of `handleRequest`: the response, the error (`none` is nil) and
the world after the request. -/
structure Outcome (σ : Type) where
  response : events.APIGatewayProxyResponse
  err : Option String
  world : World σ

/-- `handleRequest`: the dispatcher on the method and the path identifier. -/
def handleRequest {σ : Type} (drv : sql.Driver σ) (request : events.APIGatewayProxyRequest)
    (w : World σ) : Outcome σ :=
  if request.HTTPMethod = "GET" then
    match request.PathParameters.lookup "id" with
    | some id =>
      match strconv.Atoi id with
      | none => { response := { StatusCode := 400, Body := "Invalid ID" }, err := none, world := w }
      | some idInt =>
        { response := (animals.GetAnimalByID drv idInt w).1, err := none,
          world := (animals.GetAnimalByID drv idInt w).2 }
    | none =>
      { response := (animals.GetAnimals drv w).1, err := none,
        world := (animals.GetAnimals drv w).2 }
  else if request.HTTPMethod = "POST" then
    { response := (animals.CreateAnimal drv request.Body w).1, err := none,
      world := (animals.CreateAnimal drv request.Body w).2 }
  else if request.HTTPMethod = "PATCH" then
    match request.PathParameters.lookup "id" with
    | some id =>
      match strconv.Atoi id with
      | none => { response := { StatusCode := 400, Body := "Invalid ID" }, err := none, world := w }
      | some idInt =>
        { response := (animals.UpdateAnimal drv idInt request.Body w).1, err := none,
          world := (animals.UpdateAnimal drv idInt request.Body w).2 }
    | none =>
      { response := { StatusCode := 400, Body := "ID not provided" }, err := none, world := w }
  else if request.HTTPMethod = "DELETE" then
    match request.PathParameters.lookup "id" with
    | some id =>
      match strconv.Atoi id with
      | none => { response := { StatusCode := 400, Body := "Invalid ID" }, err := none, world := w }
      | some idInt =>
        { response := (animals.DeleteAnimal drv idInt w).1, err := none,
          world := (animals.DeleteAnimal drv idInt w).2 }
    | none =>
      { response := { StatusCode := 400, Body := "ID not provided" }, err := none, world := w }
  else
    { response := { StatusCode := 405, Body := "Method not allowed" }, err := none, world := w }

/-! ## The tokens of an encoded value -/

/-- The piece the scanner collects from the encoding of a character. -/
def json.pieceOf (c : Char) : json.Piece :=
  if c = '"' ∨ c = '\\' ∨ c = Char.ofNat 8 ∨ c = Char.ofNat 12 ∨ c = '\n' ∨ c = '\r' ∨ c = '\t'
  then .chr c
  else if c.toNat < 0x20 ∨ c = '<' ∨ c = '>' ∨ c = '&' ∨ c.toNat = 0x2028 ∨ c.toNat = 0x2029 then
    .unit c.toNat
  else .chr c

/-- A decimal digit. -/
def json.isDigit (c : Char) : Bool := decide ('0' ≤ c ∧ c ≤ '9')

/-- The literal of a natural number: `0`, or a digit from 1 to 9 followed by
digits. -/
def json.isNatLit : List Char → Bool
  | [] => false
  | d :: ds => (d = '0' && ds.isEmpty) || (decide ('1' ≤ d ∧ d ≤ '9') && ds.all json.isDigit)

/-- A character that ends a number literal and a value: a comma or a closing
bracket. -/
def json.isDelimiter (c : Char) : Bool := c = ',' || c = '\x7d' || c = ']'

/-- The values `json.encodeValue` produces: `null`, a boolean, a string, or a
number whose literal is the decimal text of an integer. -/
def json.Encoded (v : JSON) : Prop :=
  v = .null ∨ (∃ b, v = .bool b) ∨ (∃ s, v = .str s) ∨ (∃ n : Int, v = .num (strconv.Itoa n))

/-- The token of a scalar value. -/
def json.scalarToken : JSON → json.Token
  | .null => .nul
  | .bool true => .tru
  | .bool false => .fls
  | .num lit => .num lit
  | .str s => .str s
  | _ => .nul

/-- The tokens of the members of an object whose values are scalars. -/
def json.membersTokens : List (String × JSON) → List json.Token
  | [] => []
  | [(k, v)] => [.str k, .colon, json.scalarToken v]
  | (k, v) :: m :: ms =>
    .str k :: .colon :: json.scalarToken v :: .comma :: json.membersTokens (m :: ms)

/-- The tokens of an object whose values are scalars. -/
def json.objectTokens (ms : List (String × JSON)) : List json.Token :=
  .lbrace :: (json.membersTokens ms ++ [.rbrace])

/-! ## The attribute order of the specification -/

/-- The sixteen attributes in the order in which section 3 of the specification
enumerates them: id; name, species, arrivalDate, status; breed, age, sex,
description, healthStatus, chipNumber, internalNotes, reasonOnboarded,
latestVaccinationDate, currentLocation; sterilisationStatus.  This definition
follows the specification, not the code. -/
def spec.attributeOrder : List models.Field :=
  [.ID, .Name, .Species, .ArrivalDate, .Status, .Breed, .Age, .Sex, .Description,
   .HealthStatus, .ChipNumber, .InternalNotes, .ReasonOnboarded, .LatestVaccinationDate,
   .CurrentLocation, .SterilisationStatus]

/-- The attributes of an animal bound as statement parameters (or laid out as
the columns of a row) in a given order. -/
def bindInOrder (order : List models.Field) (a : models.Animal) : List sql.Value :=
  order.map (fun f => sql.bind (a.field f))

/-- The fifteen fields other than `ID`, in declaration order. -/
def models.Field.nonID : List models.Field :=
  models.Field.all.tail

/-- An animal all of whose attributes are set, with pairwise different
values. -/
def models.Animal.example : models.Animal :=
  { ID := 1, Name := "Rex", Species := "Dog", Breed := some "Collie", Age := some 3,
    Sex := some "male", Description := some "friendly", ArrivalDate := "2024-01-01",
    HealthStatus := some "healthy", SterilisationStatus := some true,
    ChipNumber := some "985112", InternalNotes := some "shy", ReasonOnboarded := some "stray",
    LatestVaccinationDate := some "2024-02-02", CurrentLocation := some "kennel 4",
    Status := "available" }

/-- The sixteen attributes bind positionally in the given order: the insert
sent by `db.CreateAnimal` and the update sent by `db.UpdateAnimal` bind the
attributes other than id in that order (the update has the row selector after
them), and `db.GetAnimalByID` and `db.GetAllAnimals` scan a row that holds the
sixteen attributes in that order to the animal they are from. -/
def PositionalOrder (order : List models.Field) : Prop :=
  (∀ (σ : Type) (drv : sql.Driver σ) (w : World σ) (a : models.Animal),
    (db.CreateAnimal drv a w).2.calls
      = w.calls ++ [sql.Call.QueryRow db.insertSQL
          (bindInOrder (order.filter (fun f => decide (f ≠ models.Field.ID))) a)]) ∧
  (∀ (σ : Type) (drv : sql.Driver σ) (w : World σ) (id : Int) (a : models.Animal),
    (db.UpdateAnimal drv id a w).2.calls
      = w.calls ++ [sql.Call.Exec db.updateSQL
          (bindInOrder (order.filter (fun f => decide (f ≠ models.Field.ID))) a
            ++ [sql.Value.int id])]) ∧
  (∀ (σ : Type) (drv : sql.Driver σ) (w : World σ) (id : Int) (a : models.Animal)
      (rest : List sql.Row),
    (drv.query w.store "SELECT * FROM Animals WHERE id = $1" [sql.Value.int id]).1
      = .ok (bindInOrder order a :: rest) →
    (db.GetAnimalByID drv id w).1 = .ok a) ∧
  (∀ (σ : Type) (drv : sql.Driver σ) (w : World σ) (all : List models.Animal),
    (drv.query w.store "SELECT * FROM Animals" []).1 = .ok (all.map (bindInOrder order)) →
    (db.GetAllAnimals drv w).1 = .ok all)

/-- The body of the `POST /animals` scenario of section 8 of the
specification. -/
def spec.fidoBody : String :=
  "\x7b\"name\":\"Fido\",\"species\":\"Dog\",\"arrivalDate\":\"2024-01-01\",\"status\":\"available\"\x7d"

/-- The animal the body of the scenario decodes to. -/
def spec.fido : models.Animal :=
  { models.Animal.zero with
    Name := "Fido", Species := "Dog", ArrivalDate := "2024-01-01", Status := "available" }

/-! ## Stores used to instantiate the theorems -/

/-- A store that fails every statement with the given error text. -/
def sql.Driver.failing (e : String) : sql.Driver Unit :=
  { query := fun s _ _ => (.error e, s), rowsErr := fun _ _ _ => none,
    exec := fun s _ _ => (.error e, s) }

/-- A store that answers every query with the given rows and every exec with
the given number of affected rows. -/
def sql.Driver.answering (rows : List sql.Row) (affected : Nat) : sql.Driver Unit :=
  { query := fun s _ _ => (.ok rows, s), rowsErr := fun _ _ _ => none,
    exec := fun s _ _ => (.ok affected, s) }

/-- A store whose queries deliver the given rows and are then cut short by the
given error: `Rows.Next` returns false after the last of these rows and
`Rows.Err()` reports the error.  Its execs affect no row. -/
def sql.Driver.cutShort (rows : List sql.Row) (e : String) : sql.Driver Unit :=
  { query := fun s _ _ => (.ok rows, s), rowsErr := fun _ _ _ => some e,
    exec := fun s _ _ => (.ok 0, s) }

/-- A world in which no statement has been sent yet. -/
def World.initial : World Unit :=
  { store := (), calls := [] }

/-- A store that keeps a table of rows keyed by their first column.  It answers
the two select statements and the delete statement of the gateway and fails
every other statement. -/
def sql.Driver.table : sql.Driver (List sql.Row) :=
  { query := fun rows q args =>
      if q = "SELECT * FROM Animals" then (.ok rows, rows)
      else if q = "SELECT * FROM Animals WHERE id = $1" then
        (.ok (rows.filter (fun r => decide (r.head? = args.head?))), rows)
      else (.error "unsupported statement", rows),
    rowsErr := fun _ _ _ => none,
    exec := fun rows q args =>
      if q = "DELETE FROM Animals WHERE id = $1" then
        (.ok (rows.filter (fun r => decide (r.head? = args.head?))).length,
         rows.filter (fun r => decide (r.head? ≠ args.head?)))
      else (.error "unsupported statement", rows) }

/-- A world whose table holds the example animal and no other row. -/
def World.withExample : World (List sql.Row) :=
  { store := [bindInOrder models.Field.all models.Animal.example], calls := [] }

/-! ## The world after each gateway operation and handler -/

theorem db_GetAllAnimals_world {σ : Type} (drv : sql.Driver σ) (w : World σ) :
    (db.GetAllAnimals drv w).2 = (sql.DB.Query drv "SELECT * FROM Animals" [] w).2 := by
  unfold db.GetAllAnimals
  split <;> rfl

theorem db_CreateAnimal_world {σ : Type} (drv : sql.Driver σ) (animal : models.Animal)
    (w : World σ) :
    (db.CreateAnimal drv animal w).2
      = (sql.DB.QueryRow drv db.insertSQL (db.animalArgs animal) w).2 := by
  unfold db.CreateAnimal
  split <;> rfl

theorem db_GetAnimalByID_world {σ : Type} (drv : sql.Driver σ) (id : Int) (w : World σ) :
    (db.GetAnimalByID drv id w).2
      = (sql.DB.QueryRow drv "SELECT * FROM Animals WHERE id = $1" [sql.Value.int id] w).2 := by
  unfold db.GetAnimalByID
  split <;> rfl

theorem db_UpdateAnimal_world {σ : Type} (drv : sql.Driver σ) (id : Int)
    (animal : models.Animal) (w : World σ) :
    (db.UpdateAnimal drv id animal w).2
      = (sql.DB.Exec drv db.updateSQL (db.animalArgs animal ++ [sql.Value.int id]) w).2 := by
  unfold db.UpdateAnimal
  split <;> rfl

theorem db_DeleteAnimal_world {σ : Type} (drv : sql.Driver σ) (id : Int) (w : World σ) :
    (db.DeleteAnimal drv id w).2
      = (sql.DB.Exec drv "DELETE FROM Animals WHERE id = $1" [sql.Value.int id] w).2 := by
  unfold db.DeleteAnimal
  split <;> rfl

theorem animals_GetAnimals_world {σ : Type} (drv : sql.Driver σ) (w : World σ) :
    (animals.GetAnimals drv w).2 = (db.GetAllAnimals drv w).2 := by
  unfold animals.GetAnimals
  split
  · rfl
  · split <;> rfl

theorem animals_GetAnimalByID_world {σ : Type} (drv : sql.Driver σ) (id : Int) (w : World σ) :
    (animals.GetAnimalByID drv id w).2 = (db.GetAnimalByID drv id w).2 := by
  unfold animals.GetAnimalByID
  split
  · rfl
  · split <;> rfl

theorem animals_DeleteAnimal_world {σ : Type} (drv : sql.Driver σ) (id : Int) (w : World σ) :
    (animals.DeleteAnimal drv id w).2 = (db.DeleteAnimal drv id w).2 := by
  unfold animals.DeleteAnimal
  split <;> rfl

theorem animals_CreateAnimal_world_ok {σ : Type} (drv : sql.Driver σ) (requestBody : String)
    (w : World σ) (animal : models.Animal)
    (h : json.Unmarshal requestBody models.Animal.zero = .ok animal) :
    (animals.CreateAnimal drv requestBody w).2 = (db.CreateAnimal drv animal w).2 := by
  unfold animals.CreateAnimal
  rw [h]
  dsimp only
  split
  · rfl
  · split <;> rfl

theorem animals_CreateAnimal_error {σ : Type} (drv : sql.Driver σ) (requestBody : String)
    (w : World σ) (e : json.Error)
    (h : json.Unmarshal requestBody models.Animal.zero = .error e) :
    animals.CreateAnimal drv requestBody w
      = ({ StatusCode := 400, Body := "Invalid request body" }, w) := by
  unfold animals.CreateAnimal
  rw [h]
  rfl

theorem animals_UpdateAnimal_world_ok {σ : Type} (drv : sql.Driver σ) (id : Int)
    (requestBody : String) (w : World σ) (animal : models.Animal)
    (h : json.Unmarshal requestBody models.Animal.zero = .ok animal) :
    (animals.UpdateAnimal drv id requestBody w).2 = (db.UpdateAnimal drv id animal w).2 := by
  unfold animals.UpdateAnimal
  rw [h]
  dsimp only
  split
  · rfl
  · split <;> rfl

theorem animals_UpdateAnimal_error {σ : Type} (drv : sql.Driver σ) (id : Int)
    (requestBody : String) (w : World σ) (e : json.Error)
    (h : json.Unmarshal requestBody models.Animal.zero = .error e) :
    animals.UpdateAnimal drv id requestBody w
      = ({ StatusCode := 400, Body := "Invalid request body" }, w) := by
  unfold animals.UpdateAnimal
  rw [h]
  rfl

/-! ## The result of each gateway operation and the response of each handler -/

theorem Row_Scan_answer_error {σ α : Type} (drv : sql.Driver σ) (query : String)
    (args : List sql.Value) (w : World σ) (scan : sql.Row → Except sql.Error α) (e : String)
    (h : (drv.query w.store query args).1 = .error e) :
    sql.Row.Scan (sql.answer drv query args w) scan = .error (.store e) := by
  unfold sql.answer
  rw [h]
  rfl

theorem Row_Scan_answer_cons {σ α : Type} (drv : sql.Driver σ) (query : String)
    (args : List sql.Value) (w : World σ) (scan : sql.Row → Except sql.Error α)
    (row : sql.Row) (rest : List sql.Row)
    (h : (drv.query w.store query args).1 = .ok (row :: rest)) :
    sql.Row.Scan (sql.answer drv query args w) scan = scan row := by
  unfold sql.answer
  rw [h]
  rfl

theorem Row_Scan_answer_nil {σ α : Type} (drv : sql.Driver σ) (query : String)
    (args : List sql.Value) (w : World σ) (scan : sql.Row → Except sql.Error α)
    (h : (drv.query w.store query args).1 = .ok []) :
    sql.Row.Scan (sql.answer drv query args w) scan =
      match drv.rowsErr w.store query args with
      | some e => .error (.store e)
      | none => .error sql.ErrNoRows := by
  unfold sql.answer
  rw [h]
  cases drv.rowsErr w.store query args <;> rfl

theorem db_GetAllAnimals_result {σ : Type} (drv : sql.Driver σ) (w : World σ) :
    (db.GetAllAnimals drv w).1 =
      match (drv.query w.store "SELECT * FROM Animals" []).1 with
      | .error e => .error (.store e)
      | .ok rows => db.scanAll rows [] := by
  unfold db.GetAllAnimals sql.DB.Query sql.answer
  dsimp only
  cases (drv.query w.store "SELECT * FROM Animals" []).1 <;> rfl

theorem db_CreateAnimal_result {σ : Type} (drv : sql.Driver σ) (animal : models.Animal)
    (w : World σ) :
    (db.CreateAnimal drv animal w).1 =
      match sql.Row.Scan (sql.answer drv db.insertSQL (db.animalArgs animal) w) sql.scanID with
      | .error e => .error e
      | .ok id => .ok { animal with ID := id } := by
  unfold db.CreateAnimal sql.DB.QueryRow
  dsimp only
  split <;> rfl

theorem db_GetAnimalByID_result {σ : Type} (drv : sql.Driver σ) (id : Int) (w : World σ) :
    (db.GetAnimalByID drv id w).1 =
      sql.Row.Scan (sql.answer drv "SELECT * FROM Animals WHERE id = $1" [sql.Value.int id] w)
        sql.scanAnimal := by
  unfold db.GetAnimalByID sql.DB.QueryRow
  dsimp only [sql.bind]
  split <;> simp_all

theorem db_UpdateAnimal_result {σ : Type} (drv : sql.Driver σ) (id : Int)
    (animal : models.Animal) (w : World σ) :
    (db.UpdateAnimal drv id animal w).1 =
      match (drv.exec w.store db.updateSQL (db.animalArgs animal ++ [sql.Value.int id])).1 with
      | .error e => .error (.store e)
      | .ok _ => .ok { animal with ID := id } := by
  unfold db.UpdateAnimal sql.DB.Exec
  dsimp only [sql.bind]
  cases (drv.exec w.store db.updateSQL (db.animalArgs animal ++ [sql.Value.int id])).1 <;> rfl

theorem db_DeleteAnimal_result {σ : Type} (drv : sql.Driver σ) (id : Int) (w : World σ) :
    (db.DeleteAnimal drv id w).1 =
      match (drv.exec w.store "DELETE FROM Animals WHERE id = $1" [sql.Value.int id]).1 with
      | .error e => some (.store e)
      | .ok _ => none := by
  unfold db.DeleteAnimal sql.DB.Exec
  dsimp only [sql.bind]
  cases (drv.exec w.store "DELETE FROM Animals WHERE id = $1" [sql.Value.int id]).1 <;> rfl

theorem animals_GetAnimals_response {σ : Type} (drv : sql.Driver σ) (w : World σ) :
    (animals.GetAnimals drv w).1 =
      match (db.GetAllAnimals drv w).1 with
      | .error _ => { StatusCode := 500, Body := "Failed to fetch animals" }
      | .ok animals => { StatusCode := 200, Body := (json.encodeAnimals animals).render } := by
  unfold animals.GetAnimals json.MarshalAnimals
  dsimp only
  split <;> rfl

theorem animals_GetAnimalByID_response {σ : Type} (drv : sql.Driver σ) (id : Int)
    (w : World σ) :
    (animals.GetAnimalByID drv id w).1 =
      match (db.GetAnimalByID drv id w).1 with
      | .error _ => { StatusCode := 500, Body := "Failed to fetch animal by ID" }
      | .ok animal => { StatusCode := 200, Body := (json.encodeAnimal animal).render } := by
  unfold animals.GetAnimalByID json.MarshalAnimal
  dsimp only
  split <;> rfl

theorem animals_CreateAnimal_response_ok {σ : Type} (drv : sql.Driver σ)
    (requestBody : String) (w : World σ) (animal : models.Animal)
    (h : json.Unmarshal requestBody models.Animal.zero = .ok animal) :
    (animals.CreateAnimal drv requestBody w).1 =
      match (db.CreateAnimal drv animal w).1 with
      | .error _ => { StatusCode := 500, Body := "Failed to create animal" }
      | .ok created => { StatusCode := 201, Body := (json.encodeAnimal created).render } := by
  unfold animals.CreateAnimal json.MarshalAnimal
  rw [h]
  dsimp only
  split <;> rfl

theorem animals_UpdateAnimal_response_ok {σ : Type} (drv : sql.Driver σ) (id : Int)
    (requestBody : String) (w : World σ) (animal : models.Animal)
    (h : json.Unmarshal requestBody models.Animal.zero = .ok animal) :
    (animals.UpdateAnimal drv id requestBody w).1 =
      match (db.UpdateAnimal drv id animal w).1 with
      | .error _ => { StatusCode := 500, Body := "Failed to update animal" }
      | .ok updated => { StatusCode := 200, Body := (json.encodeAnimal updated).render } := by
  unfold animals.UpdateAnimal json.MarshalAnimal
  rw [h]
  dsimp only
  split <;> rfl

theorem animals_DeleteAnimal_response {σ : Type} (drv : sql.Driver σ) (id : Int) (w : World σ) :
    (animals.DeleteAnimal drv id w).1 =
      match (db.DeleteAnimal drv id w).1 with
      | some _ => { StatusCode := 500, Body := "Failed to delete animal" }
      | none => { StatusCode := 204, Body := "" } := by
  unfold animals.DeleteAnimal
  split <;> rfl

/-- The dispatcher on POST. -/
theorem handleRequest_post {σ : Type} (drv : sql.Driver σ)
    (request : events.APIGatewayProxyRequest) (w : World σ)
    (h : request.HTTPMethod = "POST") :
    handleRequest drv request w =
      { response := (animals.CreateAnimal drv request.Body w).1, err := none,
        world := (animals.CreateAnimal drv request.Body w).2 } := by
  simp [handleRequest, h]

/-- The dispatcher on PATCH with an identifier that parses. -/
theorem handleRequest_patch {σ : Type} (drv : sql.Driver σ)
    (request : events.APIGatewayProxyRequest) (w : World σ) (s : String) (id : Int)
    (h : request.HTTPMethod = "PATCH") (hid : request.PathParameters.lookup "id" = some s)
    (hparse : strconv.Atoi s = some id) :
    handleRequest drv request w =
      { response := (animals.UpdateAnimal drv id request.Body w).1, err := none,
        world := (animals.UpdateAnimal drv id request.Body w).2 } := by
  simp [handleRequest, h, hid, hparse]

/-- A trace with one more call is not the trace before it. -/
theorem calls_append_ne (calls : List sql.Call) (c : sql.Call) : calls ++ [c] ≠ calls := by
  intro h
  have := congrArg List.length h
  simp at this

/-! ## Dispatcher -/

/-- C1: a GET, PATCH or DELETE request whose path parameters hold an `id` that
`strconv.Atoi` rejects is answered with status 400 and body `Invalid ID`, the
returned error is nil, and the world after the request is the world before it:
the store is untouched and no statement was sent, whatever the body and the
store are. -/
theorem handleRequest_invalid_id {σ : Type} (drv : sql.Driver σ)
    (request : events.APIGatewayProxyRequest) (w : World σ) (id : String)
    (hmethod : request.HTTPMethod = "GET" ∨ request.HTTPMethod = "PATCH" ∨
      request.HTTPMethod = "DELETE")
    (hid : request.PathParameters.lookup "id" = some id)
    (hparse : strconv.Atoi id = none) :
    (handleRequest drv request w).response = { StatusCode := 400, Body := "Invalid ID" } ∧
    (handleRequest drv request w).err = none ∧
    (handleRequest drv request w).world = w ∧
    (handleRequest drv request w).world.calls = w.calls := by
  rcases hmethod with h | h | h <;> simp [handleRequest, h, hid, hparse]

/-- Instances of C1: the identifiers `abc`, `1.5`, ` 7`, the empty string and
`9223372036854775808` (one above the largest `int`) on the three methods. -/
theorem handleRequest_invalid_id_witness :
    (strconv.Atoi "abc" = none ∧ strconv.Atoi "1.5" = none ∧ strconv.Atoi " 7" = none ∧
      strconv.Atoi "" = none ∧ strconv.Atoi "9223372036854775808" = none) ∧
    (handleRequest (sql.Driver.answering [] 1)
      { HTTPMethod := "GET", PathParameters := [("id", "abc")], Body := "" } World.initial).response
      = { StatusCode := 400, Body := "Invalid ID" } ∧
    (handleRequest (sql.Driver.answering [] 1)
      { HTTPMethod := "PATCH", PathParameters := [("id", "1.5")], Body := "\x7b\x7d" }
      World.initial).world.calls = [] ∧
    (handleRequest (sql.Driver.answering [] 1)
      { HTTPMethod := "DELETE", PathParameters := [("id", " 7")], Body := "" }
      World.initial).world.calls = [] :=
  ⟨⟨rfl, rfl, rfl, rfl, rfl⟩,
   (handleRequest_invalid_id (sql.Driver.answering [] 1)
      { HTTPMethod := "GET", PathParameters := [("id", "abc")], Body := "" } World.initial "abc"
      (Or.inl rfl) rfl rfl).1,
   (handleRequest_invalid_id (sql.Driver.answering [] 1)
      { HTTPMethod := "PATCH", PathParameters := [("id", "1.5")], Body := "\x7b\x7d" }
      World.initial "1.5" (Or.inr (Or.inl rfl)) rfl rfl).2.2.2,
   (handleRequest_invalid_id (sql.Driver.answering [] 1)
      { HTTPMethod := "DELETE", PathParameters := [("id", " 7")], Body := "" } World.initial " 7"
      (Or.inr (Or.inr rfl)) rfl rfl).2.2.2⟩

/-- C2: with no `id` among the path parameters, PATCH and DELETE are answered
with status 400 and body `ID not provided` without any statement being sent,
for every body, whereas GET is routed to `animals.GetAnimals` (List all), which
sends exactly the statement `SELECT * FROM Animals`. -/
theorem handleRequest_no_id {σ : Type} (drv : sql.Driver σ)
    (request : events.APIGatewayProxyRequest) (w : World σ)
    (hid : request.PathParameters.lookup "id" = none) :
    ((request.HTTPMethod = "PATCH" ∨ request.HTTPMethod = "DELETE") →
      (handleRequest drv request w).response = { StatusCode := 400, Body := "ID not provided" } ∧
      (handleRequest drv request w).err = none ∧
      (handleRequest drv request w).world = w) ∧
    (request.HTTPMethod = "GET" →
      (handleRequest drv request w).response = (animals.GetAnimals drv w).1 ∧
      (handleRequest drv request w).err = none ∧
      (handleRequest drv request w).world = (animals.GetAnimals drv w).2 ∧
      (handleRequest drv request w).world.calls
        = w.calls ++ [sql.Call.Query "SELECT * FROM Animals" []]) := by
  refine ⟨?_, ?_⟩
  · intro h
    rcases h with h | h <;> simp [handleRequest, h, hid]
  · intro h
    simp [handleRequest, h, hid, animals_GetAnimals_world, db_GetAllAnimals_world, sql.DB.Query]

/-- Instances of C2: PATCH and DELETE without path parameters, and GET without
path parameters against a store that fails. -/
theorem handleRequest_no_id_witness :
    (handleRequest (sql.Driver.failing "down")
      { HTTPMethod := "PATCH", PathParameters := [], Body := "\x7b\x7d" } World.initial).response
      = { StatusCode := 400, Body := "ID not provided" } ∧
    (handleRequest (sql.Driver.failing "down")
      { HTTPMethod := "GET", PathParameters := [], Body := "" } World.initial).world.calls
      = [sql.Call.Query "SELECT * FROM Animals" []] :=
  ⟨((handleRequest_no_id (sql.Driver.failing "down")
      { HTTPMethod := "PATCH", PathParameters := [], Body := "\x7b\x7d" } World.initial rfl).1
      (Or.inl rfl)).1,
   ((handleRequest_no_id (sql.Driver.failing "down")
      { HTTPMethod := "GET", PathParameters := [], Body := "" } World.initial rfl).2 rfl).2.2.2⟩

/-- C3: a request whose method is none of `GET`, `POST`, `PATCH`, `DELETE`
(compared exactly, so `get` and the empty method are among them) is answered
with status 405 and body `Method not allowed`, whatever its path parameters
and body are, and the world is unchanged: no statement is sent. -/
theorem handleRequest_method_not_allowed {σ : Type} (drv : sql.Driver σ)
    (request : events.APIGatewayProxyRequest) (w : World σ)
    (hget : request.HTTPMethod ≠ "GET") (hpost : request.HTTPMethod ≠ "POST")
    (hpatch : request.HTTPMethod ≠ "PATCH") (hdelete : request.HTTPMethod ≠ "DELETE") :
    (handleRequest drv request w).response
      = { StatusCode := 405, Body := "Method not allowed" } ∧
    (handleRequest drv request w).err = none ∧
    (handleRequest drv request w).world = w ∧
    (handleRequest drv request w).world.calls = w.calls := by
  simp [handleRequest, hget, hpost, hpatch, hdelete]

/-- Instances of C3: `PUT` with a numeric id, `get` with a non-numeric id and
the empty method without id. -/
theorem handleRequest_method_not_allowed_witness :
    (handleRequest (sql.Driver.answering [] 1)
      { HTTPMethod := "PUT", PathParameters := [("id", "3")], Body := "\x7b\x7d" }
      World.initial).response = { StatusCode := 405, Body := "Method not allowed" } ∧
    (handleRequest (sql.Driver.answering [] 1)
      { HTTPMethod := "get", PathParameters := [("id", "abc")], Body := "" }
      World.initial).response = { StatusCode := 405, Body := "Method not allowed" } ∧
    (handleRequest (sql.Driver.answering [] 1)
      { HTTPMethod := "", PathParameters := [], Body := "[" } World.initial).world.calls = [] :=
  ⟨(handleRequest_method_not_allowed (sql.Driver.answering [] 1)
      { HTTPMethod := "PUT", PathParameters := [("id", "3")], Body := "\x7b\x7d" } World.initial
      (by decide) (by decide) (by decide) (by decide)).1,
   (handleRequest_method_not_allowed (sql.Driver.answering [] 1)
      { HTTPMethod := "get", PathParameters := [("id", "abc")], Body := "" } World.initial
      (by decide) (by decide) (by decide) (by decide)).1,
   (handleRequest_method_not_allowed (sql.Driver.answering [] 1)
      { HTTPMethod := "", PathParameters := [], Body := "[" } World.initial
      (by decide) (by decide) (by decide) (by decide)).2.2.2⟩

/-! ## Body decoding gates the gateway -/

theorem animals_CreateAnimal_status_ok {σ : Type} (drv : sql.Driver σ) (requestBody : String)
    (w : World σ) (animal : models.Animal)
    (h : json.Unmarshal requestBody models.Animal.zero = .ok animal) :
    (animals.CreateAnimal drv requestBody w).1.StatusCode = 500 ∨
    (animals.CreateAnimal drv requestBody w).1.StatusCode = 201 := by
  rw [animals_CreateAnimal_response_ok drv requestBody w animal h]
  split
  · exact Or.inl rfl
  · exact Or.inr rfl

theorem animals_UpdateAnimal_status_ok {σ : Type} (drv : sql.Driver σ) (id : Int)
    (requestBody : String) (w : World σ) (animal : models.Animal)
    (h : json.Unmarshal requestBody models.Animal.zero = .ok animal) :
    (animals.UpdateAnimal drv id requestBody w).1.StatusCode = 500 ∨
    (animals.UpdateAnimal drv id requestBody w).1.StatusCode = 200 := by
  rw [animals_UpdateAnimal_response_ok drv id requestBody w animal h]
  split
  · exact Or.inl rfl
  · exact Or.inr rfl

/-- C4: on POST, and on PATCH with an identifier that parses to `id`, the
response is 400 `Invalid request body` exactly when `json.Unmarshal` of the
body into an `Animal` fails (and then the status is 400 and the world is
unchanged: nothing reaches the gateway), and a statement is sent exactly when
decoding succeeds: then it is one statement, the insert (POST) or the update
(PATCH) bound from the decoded animal, the status is not 400, and an error
of the store for that statement gives status 500.  The body `{}` and a body
whose required text fields are empty decode successfully. -/
theorem handleRequest_body_decoding {σ : Type} (drv : sql.Driver σ)
    (request : events.APIGatewayProxyRequest) (w : World σ) (s : String) (id : Int)
    (hroute : request.HTTPMethod = "POST" ∨
      (request.HTTPMethod = "PATCH" ∧ request.PathParameters.lookup "id" = some s ∧
        strconv.Atoi s = some id)) :
    ((handleRequest drv request w).response
        = { StatusCode := 400, Body := "Invalid request body" } ↔
      ∃ e, json.Unmarshal request.Body models.Animal.zero = .error e) ∧
    ((handleRequest drv request w).response.StatusCode = 400 ↔
      ∃ e, json.Unmarshal request.Body models.Animal.zero = .error e) ∧
    ((∃ e, json.Unmarshal request.Body models.Animal.zero = .error e) →
      (handleRequest drv request w).world = w) ∧
    ((handleRequest drv request w).world.calls ≠ w.calls ↔
      ∃ a, json.Unmarshal request.Body models.Animal.zero = .ok a) ∧
    (∀ a, json.Unmarshal request.Body models.Animal.zero = .ok a →
      (request.HTTPMethod = "POST" →
        (handleRequest drv request w).world.calls
          = w.calls ++ [sql.Call.QueryRow db.insertSQL (db.animalArgs a)] ∧
        ∀ e, (drv.query w.store db.insertSQL (db.animalArgs a)).1 = .error e →
          (handleRequest drv request w).response
            = { StatusCode := 500, Body := "Failed to create animal" }) ∧
      (request.HTTPMethod = "PATCH" →
        (handleRequest drv request w).world.calls
          = w.calls ++ [sql.Call.Exec db.updateSQL (db.animalArgs a ++ [sql.Value.int id])] ∧
        ∀ e, (drv.exec w.store db.updateSQL (db.animalArgs a ++ [sql.Value.int id])).1
            = .error e →
          (handleRequest drv request w).response
            = { StatusCode := 500, Body := "Failed to update animal" })) ∧
    json.Unmarshal "\x7b\x7d" models.Animal.zero = .ok models.Animal.zero ∧
    json.Unmarshal "\x7b\"name\":\"\",\"species\":\"\",\"status\":\"\"\x7d" models.Animal.zero
      = .ok models.Animal.zero := by
  refine ⟨?_, ?_, ?_, ?_, ?_, rfl, rfl⟩ <;> rcases hroute with hpost | ⟨hpatch, hid, hparse⟩
  all_goals
    first
    | rw [handleRequest_post drv request w hpost]
    | rw [handleRequest_patch drv request w s id hpatch hid hparse]
  all_goals dsimp only
  all_goals cases hU : json.Unmarshal request.Body models.Animal.zero with
    | error e =>
      first
      | (rw [animals_CreateAnimal_error drv request.Body w e hU]; simp)
      | (rw [animals_UpdateAnimal_error drv id request.Body w e hU]; simp)
    | ok a => ?_
  -- response = 400 "Invalid request body" iff decoding fails
  · have := animals_CreateAnimal_status_ok drv request.Body w a hU
    constructor
    · intro h
      rw [h] at this
      simp at this
    · simp
  · have := animals_UpdateAnimal_status_ok drv id request.Body w a hU
    constructor
    · intro h
      rw [h] at this
      simp at this
    · simp
  -- status 400 iff decoding fails
  · have := animals_CreateAnimal_status_ok drv request.Body w a hU
    constructor
    · intro h
      rw [h] at this
      simp at this
    · simp
  · have := animals_UpdateAnimal_status_ok drv id request.Body w a hU
    constructor
    · intro h
      rw [h] at this
      simp at this
    · simp
  -- decoding fails: world unchanged
  · simp
  · simp
  -- a statement is sent iff decoding succeeds
  · simp [animals_CreateAnimal_world_ok drv request.Body w a hU, db_CreateAnimal_world,
      sql.DB.QueryRow]
  · simp [animals_UpdateAnimal_world_ok drv id request.Body w a hU, db_UpdateAnimal_world,
      sql.DB.Exec]
  -- the statement sent, and a store error gives 500
  · intro a2 ha2
    cases ha2
    refine ⟨fun _ => ⟨?_, ?_⟩, fun h => ?_⟩
    · simp [animals_CreateAnimal_world_ok drv request.Body w a hU, db_CreateAnimal_world,
        sql.DB.QueryRow]
    · intro e he
      simp [animals_CreateAnimal_response_ok drv request.Body w a hU, db_CreateAnimal_result,
        Row_Scan_answer_error drv _ _ w sql.scanID e he]
    · rw [hpost] at h
      exact absurd h (by decide)
  · intro a2 ha2
    cases ha2
    refine ⟨fun h => ?_, fun _ => ⟨?_, ?_⟩⟩
    · rw [hpatch] at h
      exact absurd h (by decide)
    · simp [animals_UpdateAnimal_world_ok drv id request.Body w a hU, db_UpdateAnimal_world,
        sql.DB.Exec]
    · intro e he
      simp [animals_UpdateAnimal_response_ok drv id request.Body w a hU, db_UpdateAnimal_result,
        he]

/-- Instances of C4: POST of `{}` to a failing store sends the insert bound from
the zero animal once and is answered 500; PATCH of the malformed body `{` is
answered 400 `Invalid request body` and sends nothing. -/
theorem handleRequest_body_decoding_witness :
    (handleRequest (sql.Driver.failing "down")
      { HTTPMethod := "POST", PathParameters := [], Body := "\x7b\x7d" } World.initial).world.calls
      = [sql.Call.QueryRow db.insertSQL (db.animalArgs models.Animal.zero)] ∧
    (handleRequest (sql.Driver.failing "down")
      { HTTPMethod := "POST", PathParameters := [], Body := "\x7b\x7d" } World.initial).response
      = { StatusCode := 500, Body := "Failed to create animal" } ∧
    (handleRequest (sql.Driver.answering [] 1)
      { HTTPMethod := "PATCH", PathParameters := [("id", "12")], Body := "\x7b" }
      World.initial).response = { StatusCode := 400, Body := "Invalid request body" } ∧
    (handleRequest (sql.Driver.answering [] 1)
      { HTTPMethod := "PATCH", PathParameters := [("id", "12")], Body := "\x7b" }
      World.initial).world = World.initial :=
  ⟨(((handleRequest_body_decoding (sql.Driver.failing "down")
      { HTTPMethod := "POST", PathParameters := [], Body := "\x7b\x7d" } World.initial "" 0
      (Or.inl rfl)).2.2.2.2.1 models.Animal.zero rfl).1 rfl).1,
   (((handleRequest_body_decoding (sql.Driver.failing "down")
      { HTTPMethod := "POST", PathParameters := [], Body := "\x7b\x7d" } World.initial "" 0
      (Or.inl rfl)).2.2.2.2.1 models.Animal.zero rfl).1 rfl).2 "down" rfl,
   (handleRequest_body_decoding (sql.Driver.answering [] 1)
      { HTTPMethod := "PATCH", PathParameters := [("id", "12")], Body := "\x7b" } World.initial
      "12" 12 (Or.inr ⟨rfl, rfl, rfl⟩)).1.2 ⟨json.Error.malformed, rfl⟩,
   (handleRequest_body_decoding (sql.Driver.answering [] 1)
      { HTTPMethod := "PATCH", PathParameters := [("id", "12")], Body := "\x7b" } World.initial
      "12" 12 (Or.inr ⟨rfl, rfl, rfl⟩)).2.2.1 ⟨json.Error.malformed, rfl⟩⟩

/-! ## Outcome to status code -/

/-- C5: when the gateway call succeeds (and, for Create and Replace, the body
decodes) the status depends on the operation alone and the body is the
`json.Marshal` encoding of what the gateway returned: List all and Get-by-id
give 200, Create gives 201, Replace gives 200, Delete gives 204 with the empty
body. -/
theorem handlers_success_status {σ : Type} (drv : sql.Driver σ) (w : World σ) (id : Int)
    (requestBody : String) :
    (∀ all, (db.GetAllAnimals drv w).1 = .ok all →
      ∃ body, json.MarshalAnimals all = .ok body ∧
        (animals.GetAnimals drv w).1 = { StatusCode := 200, Body := body }) ∧
    (∀ animal, (db.GetAnimalByID drv id w).1 = .ok animal →
      ∃ body, json.MarshalAnimal animal = .ok body ∧
        (animals.GetAnimalByID drv id w).1 = { StatusCode := 200, Body := body }) ∧
    (∀ animal created, json.Unmarshal requestBody models.Animal.zero = .ok animal →
      (db.CreateAnimal drv animal w).1 = .ok created →
      ∃ body, json.MarshalAnimal created = .ok body ∧
        (animals.CreateAnimal drv requestBody w).1 = { StatusCode := 201, Body := body }) ∧
    (∀ animal updated, json.Unmarshal requestBody models.Animal.zero = .ok animal →
      (db.UpdateAnimal drv id animal w).1 = .ok updated →
      ∃ body, json.MarshalAnimal updated = .ok body ∧
        (animals.UpdateAnimal drv id requestBody w).1 = { StatusCode := 200, Body := body }) ∧
    ((db.DeleteAnimal drv id w).1 = none →
      (animals.DeleteAnimal drv id w).1 = { StatusCode := 204, Body := "" }) := by
  refine ⟨?_, ?_, ?_, ?_, ?_⟩
  · intro all h
    exact ⟨_, rfl, by rw [animals_GetAnimals_response, h]⟩
  · intro animal h
    exact ⟨_, rfl, by rw [animals_GetAnimalByID_response, h]⟩
  · intro animal created hU h
    exact ⟨_, rfl, by rw [animals_CreateAnimal_response_ok drv requestBody w animal hU, h]⟩
  · intro animal updated hU h
    exact ⟨_, rfl, by rw [animals_UpdateAnimal_response_ok drv id requestBody w animal hU, h]⟩
  · intro h
    rw [animals_DeleteAnimal_response, h]

/-- Instances of C5 against a store that answers every query with the row
`(7)` and every exec with one affected row: Create of `{}` gives 201 with the
encoded animal of id 7, Delete gives 204 with the empty body. -/
theorem handlers_success_status_witness :
    (animals.CreateAnimal (sql.Driver.answering [[sql.Value.int 7]] 1) "\x7b\x7d" World.initial).1
      = { StatusCode := 201,
          Body := "\x7b\"id\":7,\"name\":\"\",\"species\":\"\",\"arrivalDate\":\"\",\"status\":\"\"\x7d" } ∧
    (animals.DeleteAnimal (sql.Driver.answering [[sql.Value.int 7]] 1) 3 World.initial).1
      = { StatusCode := 204, Body := "" } := by
  refine ⟨?_, ?_⟩
  · obtain ⟨body, hbody, hresp⟩ :=
      (handlers_success_status (sql.Driver.answering [[sql.Value.int 7]] 1) World.initial 3
        "\x7b\x7d").2.2.1 models.Animal.zero { models.Animal.zero with ID := 7 } rfl rfl
    rw [hresp]
    injection hbody with hbody
    subst hbody
    rfl
  · exact (handlers_success_status (sql.Driver.answering [[sql.Value.int 7]] 1) World.initial 3
      "\x7b\x7d").2.2.2.2 rfl

/-! ## Store errors and the response -/

theorem animals_GetAnimals_error {σ : Type} (drv : sql.Driver σ) (w : World σ) (e : sql.Error)
    (h : (db.GetAllAnimals drv w).1 = .error e) :
    (animals.GetAnimals drv w).1 = { StatusCode := 500, Body := "Failed to fetch animals" } := by
  rw [animals_GetAnimals_response, h]

theorem animals_GetAnimalByID_error {σ : Type} (drv : sql.Driver σ) (id : Int) (w : World σ)
    (e : sql.Error) (h : (db.GetAnimalByID drv id w).1 = .error e) :
    (animals.GetAnimalByID drv id w).1
      = { StatusCode := 500, Body := "Failed to fetch animal by ID" } := by
  rw [animals_GetAnimalByID_response, h]

theorem animals_CreateAnimal_store_error {σ : Type} (drv : sql.Driver σ) (requestBody : String)
    (w : World σ) (animal : models.Animal) (e : sql.Error)
    (hU : json.Unmarshal requestBody models.Animal.zero = .ok animal)
    (h : (db.CreateAnimal drv animal w).1 = .error e) :
    (animals.CreateAnimal drv requestBody w).1
      = { StatusCode := 500, Body := "Failed to create animal" } := by
  rw [animals_CreateAnimal_response_ok drv requestBody w animal hU, h]

theorem animals_UpdateAnimal_store_error {σ : Type} (drv : sql.Driver σ) (id : Int)
    (requestBody : String) (w : World σ) (animal : models.Animal) (e : sql.Error)
    (hU : json.Unmarshal requestBody models.Animal.zero = .ok animal)
    (h : (db.UpdateAnimal drv id animal w).1 = .error e) :
    (animals.UpdateAnimal drv id requestBody w).1
      = { StatusCode := 500, Body := "Failed to update animal" } := by
  rw [animals_UpdateAnimal_response_ok drv id requestBody w animal hU, h]

theorem animals_DeleteAnimal_error {σ : Type} (drv : sql.Driver σ) (id : Int) (w : World σ)
    (e : sql.Error) (h : (db.DeleteAnimal drv id w).1 = some e) :
    (animals.DeleteAnimal drv id w).1
      = { StatusCode := 500, Body := "Failed to delete animal" } := by
  rw [animals_DeleteAnimal_response, h]

/-- An error that the store returns for the statement itself is the error of
the gateway, for each of the five operations; so is, for Get-by-id, the error
that ends the iteration before the first row, and the absence of a row
(`sql.ErrNoRows`). -/
theorem gateway_error_of_store_error {σ : Type} (drv : sql.Driver σ) (w : World σ) (id : Int)
    (a : models.Animal) :
    (∀ e, (drv.query w.store "SELECT * FROM Animals" []).1 = .error e →
      (db.GetAllAnimals drv w).1 = .error (.store e)) ∧
    (∀ e, (drv.query w.store "SELECT * FROM Animals WHERE id = $1" [sql.Value.int id]).1
        = .error e → (db.GetAnimalByID drv id w).1 = .error (.store e)) ∧
    ((drv.query w.store "SELECT * FROM Animals WHERE id = $1" [sql.Value.int id]).1 = .ok [] →
      (db.GetAnimalByID drv id w).1 =
        match drv.rowsErr w.store "SELECT * FROM Animals WHERE id = $1" [sql.Value.int id] with
        | some e => .error (.store e)
        | none => .error sql.ErrNoRows) ∧
    (∀ e, (drv.query w.store db.insertSQL (db.animalArgs a)).1 = .error e →
      (db.CreateAnimal drv a w).1 = .error (.store e)) ∧
    (∀ e, (drv.exec w.store db.updateSQL (db.animalArgs a ++ [sql.Value.int id])).1
        = .error e → (db.UpdateAnimal drv id a w).1 = .error (.store e)) ∧
    (∀ e, (drv.exec w.store "DELETE FROM Animals WHERE id = $1" [sql.Value.int id]).1
        = .error e → (db.DeleteAnimal drv id w).1 = some (.store e)) := by
  refine ⟨?_, ?_, ?_, ?_, ?_, ?_⟩
  · intro e h
    rw [db_GetAllAnimals_result, h]
  · intro e h
    rw [db_GetAnimalByID_result, Row_Scan_answer_error drv _ _ w _ e h]
  · intro h
    rw [db_GetAnimalByID_result, Row_Scan_answer_nil drv _ _ w _ h]
  · intro e h
    rw [db_CreateAnimal_result, Row_Scan_answer_error drv _ _ w _ e h]
  · intro e h
    rw [db_UpdateAnimal_result, h]
  · intro e h
    rw [db_DeleteAnimal_result, h]

/-- When `Rows.Next` ends the loop of `GetAllAnimals`, the animals scanned so
far are returned with a nil error and answered 200, whatever `Rows.Err()`
would report. -/
theorem GetAnimals_ignores_rowsErr {σ : Type} (drv : sql.Driver σ) (w : World σ)
    (rows : List sql.Row) (all : List models.Animal)
    (hquery : (drv.query w.store "SELECT * FROM Animals" []).1 = .ok rows)
    (hscan : db.scanAll rows [] = .ok all) :
    (db.GetAllAnimals drv w).1 = .ok all ∧
    (animals.GetAnimals drv w).1
      = { StatusCode := 200, Body := (json.encodeAnimals all).render } := by
  have h : (db.GetAllAnimals drv w).1 = .ok all := by
    rw [db_GetAllAnimals_result, hquery]
    exact hscan
  exact ⟨h, by rw [animals_GetAnimals_response, h]⟩

set_option maxRecDepth 100000 in
/-- C6, at the failing input.  The store delivers the row of the example animal
for `SELECT * FROM Animals` and then fails: `Rows.Next` returns false and
`Rows.Err()` reports `connection reset`.  `db.GetAllAnimals` does not read
`Rows.Err()`: it returns the one animal with a nil error, and
`animals.GetAnimals` answers 200 with the array of that animal, not 500
`Failed to fetch animals`.  The sibling paths do answer 500: List all when the
same error is returned by the query itself, and Get-by-id when the same error
ends the iteration before the first row (`Row.Scan` reads `Rows.Err()`). -/
theorem list_all_ignores_iteration_error :
    (sql.Driver.cutShort [bindInOrder models.Field.all models.Animal.example]
        "connection reset").rowsErr () "SELECT * FROM Animals" [] = some "connection reset" ∧
    (db.GetAllAnimals
        (sql.Driver.cutShort [bindInOrder models.Field.all models.Animal.example]
          "connection reset") World.initial).1 = .ok [models.Animal.example] ∧
    (animals.GetAnimals
        (sql.Driver.cutShort [bindInOrder models.Field.all models.Animal.example]
          "connection reset") World.initial).1
      = { StatusCode := 200,
          Body := "[\x7b\"id\":1,\"name\":\"Rex\",\"species\":\"Dog\",\"breed\":\"Collie\",\"age\":3,\"sex\":\"male\",\"description\":\"friendly\",\"arrivalDate\":\"2024-01-01\",\"healthStatus\":\"healthy\",\"sterilisationStatus\":true,\"chipNumber\":\"985112\",\"internalNotes\":\"shy\",\"reasonOnboarded\":\"stray\",\"latestVaccinationDate\":\"2024-02-02\",\"currentLocation\":\"kennel 4\",\"status\":\"available\"\x7d]" } ∧
    (handleRequest
        (sql.Driver.cutShort [bindInOrder models.Field.all models.Animal.example]
          "connection reset")
        { HTTPMethod := "GET", PathParameters := [], Body := "" }
        World.initial).response.StatusCode = 200 ∧
    (animals.GetAnimals (sql.Driver.failing "connection reset") World.initial).1
      = { StatusCode := 500, Body := "Failed to fetch animals" } ∧
    (db.GetAnimalByID (sql.Driver.cutShort [] "connection reset") 1 World.initial).1
      = .error (.store "connection reset") ∧
    (animals.GetAnimalByID (sql.Driver.cutShort [] "connection reset") 1 World.initial).1
      = { StatusCode := 500, Body := "Failed to fetch animal by ID" } :=
  ⟨rfl, rfl, rfl, rfl, rfl, rfl, rfl⟩

/-! ## Positional column mapping -/

theorem sql_convertPtr_stringPtr (i : Nat) (p : Option String) :
    sql.column i (sql.convertPtr sql.convertString (sql.bind (.stringPtr p))) = .ok p := by
  cases p <;> rfl

theorem sql_convertPtr_intPtr (i : Nat) (p : Option Int) :
    sql.column i (sql.convertPtr sql.convertInt (sql.bind (.intPtr p))) = .ok p := by
  cases p <;> rfl

theorem sql_convertPtr_boolPtr (i : Nat) (p : Option Bool) :
    sql.column i (sql.convertPtr sql.convertBool (sql.bind (.boolPtr p))) = .ok p := by
  cases p <;> rfl

/-- Binding an animal's sixteen attributes in declaration order gives a row
that scans back to the animal. -/
theorem sql_scanAnimal_bindInOrder (a : models.Animal) :
    sql.scanAnimal (bindInOrder models.Field.all a) = .ok a := by
  simp only [bindInOrder, models.Field.all, List.map, models.Animal.field, sql.scanAnimal,
    sql_convertPtr_stringPtr, sql_convertPtr_intPtr, sql_convertPtr_boolPtr]
  rfl

/-- The loop of `GetAllAnimals` over rows that hold the attributes of animals
in declaration order appends these animals. -/
theorem db_scanAll_bindInOrder (all : List models.Animal) (acc : List models.Animal) :
    db.scanAll (all.map (bindInOrder models.Field.all)) acc = .ok (acc ++ all) := by
  induction all generalizing acc with
  | nil => simp [db.scanAll]
  | cons a rest ih =>
    rw [List.map_cons, db.scanAll, sql_scanAnimal_bindInOrder]
    dsimp only
    rw [ih]
    simp

/-- `db.GetAnimalByID` scans the first row of the answer when it holds the
attributes of an animal in declaration order. -/
theorem db_GetAnimalByID_bindInOrder {σ : Type} (drv : sql.Driver σ) (w : World σ) (id : Int)
    (a : models.Animal) (rest : List sql.Row)
    (h : (drv.query w.store "SELECT * FROM Animals WHERE id = $1" [sql.Value.int id]).1
      = .ok (bindInOrder models.Field.all a :: rest)) :
    (db.GetAnimalByID drv id w).1 = .ok a := by
  rw [db_GetAnimalByID_result, Row_Scan_answer_cons drv _ _ w _ _ rest h]
  exact sql_scanAnimal_bindInOrder a

/-- `db.GetAllAnimals` scans the rows of the answer when they hold the
attributes of animals in declaration order. -/
theorem db_GetAllAnimals_bindInOrder {σ : Type} (drv : sql.Driver σ) (w : World σ)
    (all : List models.Animal)
    (h : (drv.query w.store "SELECT * FROM Animals" []).1
      = .ok (all.map (bindInOrder models.Field.all))) :
    (db.GetAllAnimals drv w).1 = .ok all := by
  rw [db_GetAllAnimals_result, h]
  dsimp only
  rw [db_scanAll_bindInOrder]
  rfl

set_option maxRecDepth 100000 in
/-- The column list of the insert statement names the fifteen fields other
than `ID` in declaration order, and its placeholders are `$1` to `$15`. -/
theorem db_insertSQL_columns :
    db.insertSQL = "INSERT INTO Animals ("
      ++ ", ".intercalate (models.Field.nonID.map models.Field.jsonName)
      ++ ") VALUES ("
      ++ ", ".intercalate ((List.range 15).map (fun i => "$" ++ Nat.repr (i + 1)))
      ++ ") RETURNING id" := by
  decide

set_option maxRecDepth 100000 in
/-- The assignments of the update statement name the fifteen fields other than
`ID` in declaration order with the placeholders `$1` to `$15`; the row selector
is `$16`. -/
theorem db_updateSQL_columns :
    db.updateSQL = "UPDATE Animals SET "
      ++ ", ".intercalate (models.Field.nonID.enum.map
          (fun p => p.2.jsonName ++ "=$" ++ Nat.repr (p.1 + 1)))
      ++ " WHERE id=$16" := by
  decide

set_option maxRecDepth 100000 in
/-- C7 as stated fails.  For the example animal the third insert parameter is
the breed, where the order of section 3 has the arrival date; the arguments of
the insert recorded by `db.CreateAnimal` are not the attributes in the order of
section 3, with or without id; and when the store answers the select
statements with a row that holds the attributes in the order of section 3,
`db.GetAnimalByID` and `db.GetAllAnimals` fail with the scan error of the
column of index 4 (the status, which meets the scan target `&animal.Age`).  So
the order of section 3 is not the positional order of the statements. -/
theorem column_order_not_spec_order :
    (db.animalArgs models.Animal.example)[2]? = some (sql.Value.text "Collie") ∧
    (bindInOrder (spec.attributeOrder.filter (fun f => decide (f ≠ models.Field.ID)))
      models.Animal.example)[2]? = some (sql.Value.text "2024-01-01") ∧
    (db.CreateAnimal (sql.Driver.answering [[sql.Value.int 1]] 1) models.Animal.example
      World.initial).2.calls
      ≠ [sql.Call.QueryRow db.insertSQL
          (bindInOrder (spec.attributeOrder.filter (fun f => decide (f ≠ models.Field.ID)))
            models.Animal.example)] ∧
    (db.CreateAnimal (sql.Driver.answering [[sql.Value.int 1]] 1) models.Animal.example
      World.initial).2.calls
      ≠ [sql.Call.QueryRow db.insertSQL (bindInOrder spec.attributeOrder models.Animal.example)] ∧
    (db.GetAnimalByID
        (sql.Driver.answering [bindInOrder spec.attributeOrder models.Animal.example] 1) 1
        World.initial).1 = .error (sql.Error.scan 4) ∧
    (db.GetAllAnimals
        (sql.Driver.answering [bindInOrder spec.attributeOrder models.Animal.example] 1)
        World.initial).1 = .error (sql.Error.scan 4) ∧
    ¬ PositionalOrder spec.attributeOrder := by
  refine ⟨by decide, by decide, by decide, by decide, rfl, rfl, ?_⟩
  intro h
  have h1 := h.1 Unit (sql.Driver.answering [[sql.Value.int 1]] 1) World.initial
    models.Animal.example
  revert h1
  decide

/-- C7, amended: the sixteen attributes bind positionally in the order in which
`models.Animal` declares its fields (id, name, species, breed, age, sex,
description, arrivalDate, healthStatus, sterilisationStatus, chipNumber,
internalNotes, reasonOnboarded, latestVaccinationDate, currentLocation,
status).  The scan targets of both select statements are the sixteen
attributes in that order: `db.GetAnimalByID` scans a first row that holds them
in that order to the animal they are from, and `db.GetAllAnimals` scans rows
that hold them in that order to the list of these animals.  The insert
statement sent by `db.CreateAnimal` binds the fifteen attributes other than id
in that order to the columns its text lists in that order; the update
statement sent by `db.UpdateAnimal` binds the same fifteen in that order to
`$1`..`$15` and the identifier to `$16`. -/
theorem column_order_is_declaration_order {σ : Type} (drv : sql.Driver σ) (w : World σ)
    (a : models.Animal) (id : Int) (all : List models.Animal) (rest : List sql.Row) :
    PositionalOrder models.Field.all ∧
    models.Field.all = [.ID, .Name, .Species, .Breed, .Age, .Sex, .Description, .ArrivalDate,
      .HealthStatus, .SterilisationStatus, .ChipNumber, .InternalNotes, .ReasonOnboarded,
      .LatestVaccinationDate, .CurrentLocation, .Status] ∧
    ((drv.query w.store "SELECT * FROM Animals WHERE id = $1" [sql.Value.int id]).1
        = .ok (bindInOrder models.Field.all a :: rest) →
      (db.GetAnimalByID drv id w).1 = .ok a) ∧
    ((drv.query w.store "SELECT * FROM Animals" []).1
        = .ok (all.map (bindInOrder models.Field.all)) →
      (db.GetAllAnimals drv w).1 = .ok all) ∧
    (db.CreateAnimal drv a w).2.calls
      = w.calls ++ [sql.Call.QueryRow db.insertSQL (bindInOrder models.Field.nonID a)] ∧
    (db.UpdateAnimal drv id a w).2.calls
      = w.calls ++ [sql.Call.Exec db.updateSQL
          (bindInOrder models.Field.nonID a ++ [sql.Value.int id])] ∧
    db.insertSQL = "INSERT INTO Animals ("
      ++ ", ".intercalate (models.Field.nonID.map models.Field.jsonName)
      ++ ") VALUES ("
      ++ ", ".intercalate ((List.range 15).map (fun i => "$" ++ Nat.repr (i + 1)))
      ++ ") RETURNING id" ∧
    db.updateSQL = "UPDATE Animals SET "
      ++ ", ".intercalate (models.Field.nonID.enum.map
          (fun p => p.2.jsonName ++ "=$" ++ Nat.repr (p.1 + 1)))
      ++ " WHERE id=$16" := by
  have hcreate : ∀ (τ : Type) (d : sql.Driver τ) (v : World τ) (x : models.Animal),
      (db.CreateAnimal d x v).2.calls
        = v.calls ++ [sql.Call.QueryRow db.insertSQL (bindInOrder models.Field.nonID x)] := by
    intro τ d v x
    rw [db_CreateAnimal_world]
    rfl
  have hupdate : ∀ (τ : Type) (d : sql.Driver τ) (v : World τ) (i : Int) (x : models.Animal),
      (db.UpdateAnimal d i x v).2.calls
        = v.calls ++ [sql.Call.Exec db.updateSQL
            (bindInOrder models.Field.nonID x ++ [sql.Value.int i])] := by
    intro τ d v i x
    rw [db_UpdateAnimal_world]
    rfl
  exact ⟨⟨hcreate, hupdate,
      fun τ d v i x r h => db_GetAnimalByID_bindInOrder d v i x r h,
      fun τ d v l h => db_GetAllAnimals_bindInOrder d v l h⟩,
    rfl, db_GetAnimalByID_bindInOrder drv w id a rest, db_GetAllAnimals_bindInOrder drv w all,
    hcreate σ drv w a, hupdate σ drv w id a, db_insertSQL_columns, db_updateSQL_columns⟩

/-- Instances of C7, amended, in a table that holds the row of the example
animal in declaration order: both select functions return the example
animal. -/
theorem column_order_is_declaration_order_witness :
    (db.GetAnimalByID sql.Driver.table 1 World.withExample).1 = .ok models.Animal.example ∧
    (db.GetAllAnimals sql.Driver.table World.withExample).1 = .ok [models.Animal.example] :=
  ⟨(column_order_is_declaration_order sql.Driver.table World.withExample models.Animal.example
      1 [models.Animal.example] []).2.2.1 rfl,
   (column_order_is_declaration_order sql.Driver.table World.withExample models.Animal.example
      1 [models.Animal.example] []).2.2.2.1 rfl⟩

/-! ## Encoding: omit-if-absent -/

theorem jsonName_injective (f g : models.Field) (h : f.jsonName = g.jsonName) : f = g := by
  cases f <;> cases g <;> first | rfl | (revert h; decide)

/-- A member is written for a field exactly when the field is not both tagged
`omitempty` and empty. -/
theorem mem_members_iff (a : models.Animal) (k : String) (v : JSON) :
    (k, v) ∈ json.members a ↔
      ∃ f : models.Field, ¬ (f.omitEmpty = true ∧ json.isEmptyValue (a.field f) = true) ∧
        k = f.jsonName ∧ v = json.encodeValue (a.field f) := by
  unfold json.members
  rw [List.mem_filterMap]
  constructor
  · rintro ⟨f, _, hf⟩
    refine ⟨f, ?_⟩
    by_cases hc : (f.omitEmpty && json.isEmptyValue (a.field f)) = true
    · simp [hc] at hf
    · simp only [hc] at hf
      simp only [Bool.and_eq_true] at hc
      simp only [Bool.false_eq_true, if_false, Option.some.injEq, Prod.mk.injEq] at hf
      exact ⟨hc, hf.1.symm, hf.2.symm⟩
  · rintro ⟨f, hc, hk, hv⟩
    refine ⟨f, by cases f <;> simp [models.Field.all], ?_⟩
    have hc2 : ¬ (f.omitEmpty && json.isEmptyValue (a.field f)) = true := by
      simpa only [Bool.and_eq_true] using hc
    simp [hc2, hk, hv]

/-- The key of a field is among the keys written exactly when the field is not
both tagged `omitempty` and empty. -/
theorem key_mem_members_iff (a : models.Animal) (f : models.Field) :
    f.jsonName ∈ (json.members a).map Prod.fst ↔
      ¬ (f.omitEmpty = true ∧ json.isEmptyValue (a.field f) = true) := by
  rw [List.mem_map]
  constructor
  · rintro ⟨⟨k, v⟩, hmem, hk⟩
    obtain ⟨g, hc, hk2, _⟩ := (mem_members_iff a k v).1 hmem
    have : g = f := jsonName_injective g f (by rw [← hk2]; exact hk)
    subst this
    exact hc
  · intro hc
    exact ⟨(f.jsonName, json.encodeValue (a.field f)),
      (mem_members_iff a _ _).2 ⟨f, hc, rfl, rfl⟩, rfl⟩

/-- The keys written are the names of the fields that are not skipped, in
declaration order. -/
theorem keys_members (a : models.Animal) :
    (json.members a).map Prod.fst =
      (models.Field.all.filter
        (fun f => !(f.omitEmpty && json.isEmptyValue (a.field f)))).map models.Field.jsonName := by
  unfold json.members
  induction models.Field.all with
  | nil => rfl
  | cons f rest ih =>
    rw [List.filterMap_cons, List.filter_cons]
    cases hb : (f.omitEmpty && json.isEmptyValue (a.field f))
    · simp only [Bool.false_eq_true, if_false, Bool.not_false, if_true, List.map_cons, ih]
    · simp only [if_true, Bool.not_true, Bool.false_eq_true, if_false, ih]

/-- Only a nil pointer encodes as `null`. -/
theorem encodeValue_null_isEmpty (g : GoValue) (h : json.encodeValue g = JSON.null) :
    json.isEmptyValue g = true := by
  cases g with
  | int n => simp [json.encodeValue] at h
  | string s => simp [json.encodeValue] at h
  | stringPtr p => cases p <;> simp [json.encodeValue, json.isEmptyValue] at h ⊢
  | intPtr p => cases p <;> simp [json.encodeValue, json.isEmptyValue] at h ⊢
  | boolPtr p => cases p <;> simp [json.encodeValue, json.isEmptyValue] at h ⊢

/-- Every field that can hold a nil pointer is tagged `omitempty`. -/
theorem encodeValue_null_omitEmpty (a : models.Animal) (f : models.Field)
    (h : json.encodeValue (a.field f) = JSON.null) : f.omitEmpty = true := by
  cases f <;> simp [models.Animal.field, json.encodeValue, models.Field.omitEmpty] at h ⊢

theorem keys_members_nodup (a : models.Animal) : ((json.members a).map Prod.fst).Nodup := by
  rw [keys_members]
  have hall : (models.Field.all.map models.Field.jsonName).Nodup := by decide
  exact hall.sublist ((List.filter_sublist _).map _)

/-! ## The text written by the encoder parses back to the value encoded -/

theorem lexRun_cons (st : json.Lex) (toks : List json.Token) (c : Char) (cs : List Char) :
    json.lexRun st toks (c :: cs) =
      match json.lexStep st toks c with
      | none => none
      | some (st2, toks2) => json.lexRun st2 toks2 cs := by
  cases st <;> rfl

theorem hexVal_hexDigit (k : Nat) (h : k < 16) : json.hexVal (json.hexDigit k) = some k := by
  interval_cases k <;> rfl

theorem lexRun_escapeU (acc : List json.Piece) (toks : List json.Token) (n : Nat)
    (hn : n < 0x10000) (rest : List Char) :
    json.lexRun (.inString acc) toks (json.escapeU n ++ rest)
      = json.lexRun (.inString (.unit n :: acc)) toks rest := by
  have h3 : n / 4096 % 16 < 16 := Nat.mod_lt _ (by decide)
  have h2 : n / 256 % 16 < 16 := Nat.mod_lt _ (by decide)
  have h1 : n / 16 % 16 < 16 := Nat.mod_lt _ (by decide)
  have h0 : n % 16 < 16 := Nat.mod_lt _ (by decide)
  have hv : ((n / 4096 % 16 * 16 + n / 256 % 16) * 16 + n / 16 % 16) * 16 + n % 16 = n := by
    omega
  simp only [json.escapeU, List.cons_append, List.nil_append, lexRun_cons, json.lexStep]
  simp [hexVal_hexDigit _ h3, hexVal_hexDigit _ h2, hexVal_hexDigit _ h1, hexVal_hexDigit _ h0]
  rw [hv]

theorem lexRun_escapeChar (acc : List json.Piece) (toks : List json.Token) (c : Char)
    (rest : List Char) :
    json.lexRun (.inString acc) toks (json.escapeChar c ++ rest)
      = json.lexRun (.inString (json.pieceOf c :: acc)) toks rest := by
  unfold json.escapeChar json.pieceOf
  by_cases h1 : c = '"'
  · subst h1; rfl
  by_cases h2 : c = '\\'
  · subst h2; rfl
  by_cases h3 : c = Char.ofNat 8
  · subst h3; rfl
  by_cases h4 : c = Char.ofNat 12
  · subst h4; rfl
  by_cases h5 : c = '\n'
  · subst h5; rfl
  by_cases h6 : c = '\r'
  · subst h6; rfl
  by_cases h7 : c = '\t'
  · subst h7; rfl
  simp only [h1, h2, h3, h4, h5, h6, h7, if_false, false_or]
  by_cases h8 : c.toNat < 0x20 ∨ c = '<' ∨ c = '>' ∨ c = '&' ∨ c.toNat = 0x2028 ∨ c.toNat = 0x2029
  · rw [if_pos h8, if_pos h8]
    apply lexRun_escapeU
    rcases h8 with h | h | h | h | h | h
    · omega
    · subst h; decide
    · subst h; decide
    · subst h; decide
    · omega
    · omega
  · rw [if_neg h8, if_neg h8]
    have hlt : ¬ c.toNat < 0x20 := fun h => h8 (Or.inl h)
    simp [lexRun_cons, json.lexStep, h1, h2, hlt]

theorem pieceOf_cases (c : Char) :
    json.pieceOf c = .chr c ∨ (json.pieceOf c = .unit c.toNat ∧ c.toNat < 0xD800) := by
  unfold json.pieceOf
  split
  · exact Or.inl rfl
  · split
    · rename_i h
      refine Or.inr ⟨rfl, ?_⟩
      rcases h with h | h | h | h | h | h
      · omega
      · subst h; decide
      · subst h; decide
      · subst h; decide
      · omega
      · omega
    · exact Or.inl rfl

theorem decodePieces_pieceOf (cs : List Char) :
    json.decodePieces none (cs.map json.pieceOf) = cs := by
  induction cs with
  | nil => rfl
  | cons c cs ih =>
    rw [List.map_cons]
    rcases pieceOf_cases c with h | ⟨h, hlt⟩
    · rw [h, json.decodePieces, ih]
    · have hnot : ¬ (0xD800 ≤ c.toNat ∧ c.toNat < 0xDC00) := by omega
      have hnot2 : ¬ (0xD800 ≤ c.toNat ∧ c.toNat < 0xE000) := by omega
      rw [h, json.decodePieces, if_neg hnot, ih, json.unitChar, if_neg hnot2, Char.ofNat_toNat]

theorem lexRun_escaped (cs : List Char) (acc : List json.Piece) (toks : List json.Token)
    (rest : List Char) :
    json.lexRun (.inString acc) toks (cs.flatMap json.escapeChar ++ rest)
      = json.lexRun (.inString ((cs.map json.pieceOf).reverse ++ acc)) toks rest := by
  induction cs generalizing acc with
  | nil => rfl
  | cons c cs ih =>
    rw [List.flatMap_cons, List.append_assoc, lexRun_escapeChar, ih]
    simp

/-- The scanner reads the encoding of a string back as that string. -/
theorem lexRun_quote (s : String) (toks : List json.Token) (rest : List Char) :
    json.lexRun .idle toks ((json.quote s).data ++ rest)
      = json.lexRun .idle (.str s :: toks) rest := by
  have h : (json.quote s).data ++ rest
      = '"' :: (s.data.flatMap json.escapeChar ++ ('"' :: rest)) := by
    simp [json.quote]
  rw [h, lexRun_cons]
  have h0 : json.lexStep .idle toks '"' = some (.inString [], toks) := rfl
  rw [h0]
  dsimp only
  rw [lexRun_escaped, lexRun_cons]
  simp [json.lexStep, decodePieces_pieceOf]

theorem numStep_delimiter (st : json.NumState) (c : Char) (h : json.isDelimiter c = true) :
    json.numStep st c = none := by
  simp only [json.isDelimiter, Bool.or_eq_true, decide_eq_true_eq] at h
  rcases h with (h | h) | h <;> subst h <;> cases st <;> rfl

theorem lexRun_digits (ds : List Char) (hds : ds.all json.isDigit = true) (acc : List Char)
    (toks : List json.Token) (c : Char) (hc : json.isDelimiter c = true) (rest : List Char) :
    json.lexRun (.inNumber .int acc) toks (ds ++ c :: rest)
      = match json.idleStep (.num (String.mk (acc.reverse ++ ds)) :: toks) c with
        | none => none
        | some (st2, toks2) => json.lexRun st2 toks2 rest := by
  induction ds generalizing acc with
  | nil =>
    simp only [List.nil_append, List.append_nil, lexRun_cons, json.lexStep,
      numStep_delimiter _ c hc, json.numAccepting, if_true]
  | cons d ds ih =>
    simp only [List.all_cons, Bool.and_eq_true] at hds
    have hd : '0' ≤ d ∧ d ≤ '9' := by simpa [json.isDigit] using hds.1
    simp only [List.cons_append, lexRun_cons, json.lexStep, json.numStep, hd, and_self, if_true]
    rw [ih hds.2]
    simp

theorem lexRun_natLit (ds : List Char) (hds : json.isNatLit ds = true)
    (toks : List json.Token) (c : Char) (hc : json.isDelimiter c = true) (rest : List Char) :
    json.lexRun .idle toks (ds ++ c :: rest)
      = match json.idleStep (.num (String.mk ds) :: toks) c with
        | none => none
        | some (st2, toks2) => json.lexRun st2 toks2 rest := by
  cases ds with
  | nil => simp [json.isNatLit] at hds
  | cons d ds =>
    simp only [json.isNatLit, Bool.or_eq_true, Bool.and_eq_true, decide_eq_true_eq,
      List.isEmpty_iff] at hds
    rcases hds with ⟨hd, hnil⟩ | ⟨hd, hall⟩
    · subst hd
      subst hnil
      simp only [List.cons_append, List.nil_append, lexRun_cons]
      have h0 : json.lexStep .idle toks '0' = some (.inNumber .zero ['0'], toks) := rfl
      rw [h0]
      simp only [json.lexStep, numStep_delimiter _ c hc, json.numAccepting, if_true]
      rfl
    · have hstep : json.lexStep .idle toks d = some (.inNumber .int [d], toks) := by
        have hne : ∀ x : Char, ¬ ('1' ≤ x ∧ x ≤ '9') ∨ (x ≠ ' ' ∧ x ≠ '\t' ∧ x ≠ '\r' ∧ x ≠ '\n'
            ∧ x ≠ '\x7b' ∧ x ≠ '\x7d' ∧ x ≠ '[' ∧ x ≠ ']' ∧ x ≠ ':' ∧ x ≠ ',' ∧ x ≠ '"'
            ∧ x ≠ '-' ∧ x ≠ '0') := by
          intro x
          by_cases hx : '1' ≤ x ∧ x ≤ '9'
          · right
            have h1 : 49 ≤ x.toNat := hx.1
            have h2 : x.toNat ≤ 57 := hx.2
            refine ⟨?_, ?_, ?_, ?_, ?_, ?_, ?_, ?_, ?_, ?_, ?_, ?_, ?_⟩ <;>
              (intro h; subst h; revert h1 h2; decide)
          · exact Or.inl hx
        rcases hne d with h | h
        · exact absurd hd h
        · simp [json.lexStep, json.idleStep, h, hd]
      simp only [List.cons_append, lexRun_cons, hstep]
      rw [lexRun_digits ds hall [d] toks c hc rest]
      simp

theorem lexRun_negLit (ds : List Char) (hds : json.isNatLit ds = true)
    (toks : List json.Token) (c : Char) (hc : json.isDelimiter c = true) (rest : List Char) :
    json.lexRun .idle toks ('-' :: ds ++ c :: rest)
      = match json.idleStep (.num (String.mk ('-' :: ds)) :: toks) c with
        | none => none
        | some (st2, toks2) => json.lexRun st2 toks2 rest := by
  cases ds with
  | nil => simp [json.isNatLit] at hds
  | cons d ds =>
    simp only [json.isNatLit, Bool.or_eq_true, Bool.and_eq_true, decide_eq_true_eq,
      List.isEmpty_iff] at hds
    have h0 : json.lexStep .idle toks '-' = some (.inNumber .neg ['-'], toks) := rfl
    simp only [List.cons_append, lexRun_cons, h0]
    rcases hds with ⟨hd, hnil⟩ | ⟨hd, hall⟩
    · subst hd
      subst hnil
      have h1 : json.lexStep (.inNumber .neg ['-']) toks '0'
          = some (.inNumber .zero ['0', '-'], toks) := rfl
      simp only [List.nil_append, lexRun_cons, h1]
      simp only [json.lexStep, numStep_delimiter _ c hc, json.numAccepting, if_true]
      rfl
    · have hne : d ≠ '0' := by
        intro h
        subst h
        exact absurd hd.1 (by decide)
      simp only [json.lexStep, json.numStep, hne, hd, and_self, if_true, if_false]
      rw [lexRun_digits ds hall [d, '-'] toks c hc rest]
      simp

theorem digitChar_isDigit (k : Nat) (hk : k < 10) : json.isDigit (Nat.digitChar k) = true := by
  interval_cases k <;> decide

theorem digitChar_leading (k : Nat) (hk : k < 10) (h0 : k ≠ 0) :
    '1' ≤ Nat.digitChar k ∧ Nat.digitChar k ≤ '9' := by
  interval_cases k <;> first | exact absurd rfl h0 | decide

theorem toDigitsCore_shape (fuel : Nat) : ∀ (n : Nat) (ds : List Char), n < fuel →
    ∃ d tl, Nat.toDigitsCore 10 fuel n ds = d :: (tl ++ ds) ∧ tl.all json.isDigit = true ∧
      (n = 0 → d = '0' ∧ tl = []) ∧ (n ≠ 0 → '1' ≤ d ∧ d ≤ '9') := by
  induction fuel with
  | zero => intro n ds h; omega
  | succ fuel ih =>
    intro n ds hfuel
    unfold Nat.toDigitsCore
    by_cases hq : n / 10 = 0
    · simp only [hq, if_true]
      have hlt : n < 10 := by omega
      refine ⟨Nat.digitChar (n % 10), [], rfl, rfl, ?_, ?_⟩
      · intro h0
        subst h0
        exact ⟨rfl, rfl⟩
      · intro h0
        rw [Nat.mod_eq_of_lt hlt]
        exact digitChar_leading n hlt h0
    · simp only [hq, if_false]
      obtain ⟨d, tl, heq, hall, _, hlead⟩ :=
        ih (n / 10) (Nat.digitChar (n % 10) :: ds) (by omega)
      refine ⟨d, tl ++ [Nat.digitChar (n % 10)], ?_, ?_, ?_, ?_⟩
      · rw [heq]
        simp
      · simp only [List.all_append, hall, List.all_cons, List.all_nil, Bool.and_true,
          Bool.true_and]
        exact digitChar_isDigit _ (Nat.mod_lt _ (by decide))
      · intro h0
        subst h0
        exact absurd rfl hq
      · intro _
        exact hlead hq

theorem toDigits_isNatLit (n : Nat) : json.isNatLit (Nat.toDigits 10 n) = true := by
  obtain ⟨d, tl, heq, hall, hzero, hpos⟩ := toDigitsCore_shape (n + 1) n [] (Nat.lt_succ_self n)
  unfold Nat.toDigits
  rw [heq]
  simp only [json.isNatLit, List.append_nil, Bool.or_eq_true, Bool.and_eq_true,
    decide_eq_true_eq, List.isEmpty_iff]
  by_cases h0 : n = 0
  · exact Or.inl (hzero h0)
  · exact Or.inr ⟨hpos h0, hall⟩

/-- The scanner reads the decimal text of an integer, followed by a comma or a
closing bracket, back as one number token with that text. -/
theorem lexRun_Itoa (n : Int) (toks : List json.Token) (c : Char)
    (hc : json.isDelimiter c = true) (rest : List Char) :
    json.lexRun .idle toks ((strconv.Itoa n).data ++ c :: rest)
      = match json.idleStep (.num (strconv.Itoa n) :: toks) c with
        | none => none
        | some (st2, toks2) => json.lexRun st2 toks2 rest := by
  cases n with
  | ofNat m =>
    have h : (strconv.Itoa (Int.ofNat m)).data = Nat.toDigits 10 m := rfl
    have h2 : strconv.Itoa (Int.ofNat m) = String.mk (Nat.toDigits 10 m) := rfl
    rw [h, h2]
    exact lexRun_natLit _ (toDigits_isNatLit m) toks c hc rest
  | negSucc m =>
    have h : (strconv.Itoa (Int.negSucc m)).data = '-' :: Nat.toDigits 10 (m + 1) := rfl
    have h2 : strconv.Itoa (Int.negSucc m) = String.mk ('-' :: Nat.toDigits 10 (m + 1)) := rfl
    rw [h, h2]
    exact lexRun_negLit _ (toDigits_isNatLit (m + 1)) toks c hc rest

theorem encodeValue_encoded (g : GoValue) : json.Encoded (json.encodeValue g) := by
  cases g with
  | int n => exact Or.inr (Or.inr (Or.inr ⟨n, rfl⟩))
  | string s => exact Or.inr (Or.inr (Or.inl ⟨s, rfl⟩))
  | stringPtr p =>
    cases p with
    | none => exact Or.inl rfl
    | some s => exact Or.inr (Or.inr (Or.inl ⟨s, rfl⟩))
  | intPtr p =>
    cases p with
    | none => exact Or.inl rfl
    | some n => exact Or.inr (Or.inr (Or.inr ⟨n, rfl⟩))
  | boolPtr p =>
    cases p with
    | none => exact Or.inl rfl
    | some b => exact Or.inr (Or.inl ⟨b, rfl⟩)

theorem idleStep_delimiter (toks : List json.Token) (c : Char)
    (hc : json.isDelimiter c = true) :
    json.idleStep toks c = some (.idle,
      (if c = ',' then json.Token.comma else if c = ']' then .rbrack else .rbrace) :: toks) := by
  simp only [json.isDelimiter, Bool.or_eq_true, decide_eq_true_eq] at hc
  rcases hc with (h | h) | h <;> subst h <;> rfl

/-- The scanner reads the text of an encoded scalar, followed by a comma or a
closing bracket, back as the token of the scalar and the token of what
follows. -/
theorem lexRun_scalar (v : JSON) (hv : json.Encoded v) (toks : List json.Token) (c : Char)
    (hc : json.isDelimiter c = true) (rest : List Char) :
    json.lexRun .idle toks (v.render.data ++ c :: rest)
      = json.lexRun .idle
          ((if c = ',' then json.Token.comma else if c = ']' then .rbrack else .rbrace)
            :: json.scalarToken v :: toks) rest := by
  rcases hv with h | ⟨b, h⟩ | ⟨s, h⟩ | ⟨n, h⟩ <;> subst h
  · have h : (JSON.null.render.data ++ c :: rest) = 'n' :: 'u' :: 'l' :: 'l' :: c :: rest := rfl
    rw [h]
    simp only [lexRun_cons]
    have h1 : json.lexStep .idle toks 'n' = some (.inLiteral ['u', 'l', 'l'] .nul, toks) := rfl
    rw [h1]
    simp only [json.lexStep, if_true, idleStep_delimiter _ c hc]
    rfl
  · cases b
    · have h : ((JSON.bool false).render.data ++ c :: rest)
          = 'f' :: 'a' :: 'l' :: 's' :: 'e' :: c :: rest := rfl
      rw [h]
      simp only [lexRun_cons]
      have h1 : json.lexStep .idle toks 'f'
          = some (.inLiteral ['a', 'l', 's', 'e'] .fls, toks) := rfl
      rw [h1]
      simp only [json.lexStep, if_true, idleStep_delimiter _ c hc]
      rfl
    · have h : ((JSON.bool true).render.data ++ c :: rest)
          = 't' :: 'r' :: 'u' :: 'e' :: c :: rest := rfl
      rw [h]
      simp only [lexRun_cons]
      have h1 : json.lexStep .idle toks 't' = some (.inLiteral ['r', 'u', 'e'] .tru, toks) := rfl
      rw [h1]
      simp only [json.lexStep, if_true, idleStep_delimiter _ c hc]
      rfl
  · have h : (JSON.str s).render = json.quote s := rfl
    rw [h, lexRun_quote, lexRun_cons]
    simp only [json.lexStep, idleStep_delimiter _ c hc]
    rfl
  · have h : (JSON.num (strconv.Itoa n)).render = strconv.Itoa n := rfl
    rw [h, lexRun_Itoa n toks c hc rest, idleStep_delimiter _ c hc]
    rfl

theorem intercalate_go_data (sep : String) (l : List String) (acc : String) :
    (String.intercalate.go acc sep l).data
      = acc.data ++ l.flatMap (fun x => sep.data ++ x.data) := by
  induction l generalizing acc with
  | nil => simp [String.intercalate.go]
  | cons x xs ih =>
    rw [String.intercalate.go, ih]
    simp [String.data_append, List.append_assoc]

theorem intercalate_comma_data (x : String) (xs : List String) :
    (",".intercalate (x :: xs)).data = x.data ++ xs.flatMap (fun y => ',' :: y.data) := by
  rw [String.intercalate, intercalate_go_data]
  rfl

/-- The text of one member. -/
theorem renderMembers_cons (k : String) (v : JSON) (ms : List (String × JSON)) :
    JSON.render.renderMembers ((k, v) :: ms)
      = (json.quote k ++ ":" ++ v.render) :: JSON.render.renderMembers ms := by
  rw [JSON.render.renderMembers]

theorem member_data (k : String) (v : JSON) (rest : List Char) :
    (json.quote k ++ ":" ++ v.render).data ++ rest
      = (json.quote k).data ++ (':' :: (v.render.data ++ rest)) := by
  simp [String.data_append, List.append_assoc]

/-- The scanner on one member followed by a comma or a closing bracket. -/
theorem lexRun_member (k : String) (v : JSON) (hv : json.Encoded v) (toks : List json.Token)
    (c : Char) (hc : json.isDelimiter c = true) (rest : List Char) :
    json.lexRun .idle toks ((json.quote k ++ ":" ++ v.render).data ++ c :: rest)
      = json.lexRun .idle
          ((if c = ',' then json.Token.comma else if c = ']' then .rbrack else .rbrace)
            :: json.scalarToken v :: .colon :: .str k :: toks) rest := by
  rw [member_data, lexRun_quote, lexRun_cons]
  have h : json.lexStep .idle (.str k :: toks) ':' = some (.idle, .colon :: .str k :: toks) := rfl
  rw [h]
  dsimp only
  rw [lexRun_scalar v hv _ c hc rest]

/-- The scanner on the members of an object, from the first member to the
closing brace. -/
theorem lexRun_members (ms : List (String × JSON)) :
    ∀ (k : String) (v : JSON), (∀ kv ∈ (k, v) :: ms, json.Encoded kv.2) →
    ∀ (toks : List json.Token) (rest : List Char),
    json.lexRun .idle toks
        ((json.quote k ++ ":" ++ v.render).data
          ++ ((JSON.render.renderMembers ms).flatMap (fun y => ',' :: y.data)
            ++ '\x7d' :: rest))
      = json.lexRun .idle
          (.rbrace :: ((json.membersTokens ((k, v) :: ms)).reverse ++ toks)) rest := by
  induction ms with
  | nil =>
    intro k v henc toks rest
    have hv : json.Encoded v := henc (k, v) (List.mem_cons_self _ _)
    have h : (JSON.render.renderMembers []).flatMap (fun y => ',' :: y.data) ++ '\x7d' :: rest
        = '\x7d' :: rest := rfl
    rw [h, lexRun_member k v hv toks '\x7d' rfl rest]
    rfl
  | cons m ms ih =>
    intro k v henc toks rest
    obtain ⟨k2, v2⟩ := m
    have hv : json.Encoded v := henc (k, v) (List.mem_cons_self _ _)
    have henc2 : ∀ kv ∈ (k2, v2) :: ms, json.Encoded kv.2 :=
      fun kv hkv => henc kv (List.mem_cons_of_mem _ hkv)
    have h : (JSON.render.renderMembers ((k2, v2) :: ms)).flatMap (fun y => ',' :: y.data)
          ++ '\x7d' :: rest
        = ',' :: ((json.quote k2 ++ ":" ++ v2.render).data
          ++ ((JSON.render.renderMembers ms).flatMap (fun y => ',' :: y.data)
            ++ '\x7d' :: rest)) := by
      rw [renderMembers_cons, List.flatMap_cons]
      simp only [List.cons_append, List.append_assoc]
    rw [h, lexRun_member k v hv toks ',' rfl, ih k2 v2 henc2]
    simp [json.membersTokens]

/-- The scanner reads the text of an object of encoded scalars back as the
tokens of the object. -/
theorem lexRun_object (ms : List (String × JSON)) (henc : ∀ kv ∈ ms, json.Encoded kv.2)
    (toks : List json.Token) (rest : List Char) :
    json.lexRun .idle toks ((JSON.obj ms).render.data ++ rest)
      = json.lexRun .idle ((json.objectTokens ms).reverse ++ toks) rest := by
  cases ms with
  | nil => rfl
  | cons m ms =>
    obtain ⟨k, v⟩ := m
    have h : (JSON.obj ((k, v) :: ms)).render.data ++ rest
        = '\x7b' :: ((json.quote k ++ ":" ++ v.render).data
          ++ ((JSON.render.renderMembers ms).flatMap (fun y => ',' :: y.data)
            ++ '\x7d' :: rest)) := by
      rw [JSON.render, renderMembers_cons]
      simp only [String.data_append, intercalate_comma_data, List.append_assoc]
      rfl
    rw [h, lexRun_cons]
    have h0 : json.lexStep .idle toks '\x7b' = some (.idle, .lbrace :: toks) := rfl
    rw [h0]
    dsimp only
    rw [lexRun_members ms k v henc]
    simp [json.objectTokens]

theorem parseRun_cons (ex : json.Expect) (stack : List json.Frame) (t : json.Token)
    (ts : List json.Token) :
    json.parseRun ex stack (t :: ts) =
      match json.parseStep ex stack t with
      | none => none
      | some (ex2, stack2) => json.parseRun ex2 stack2 ts := by
  cases ex <;> rfl

theorem beginValue_scalar (stack : List json.Frame) (v : JSON) (hv : json.Encoded v) :
    json.beginValue stack (json.scalarToken v) = some (json.complete stack v) := by
  rcases hv with h | ⟨b, h⟩ | ⟨s, h⟩ | ⟨n, h⟩ <;> subst h
  · rfl
  · cases b <;> rfl
  · rfl
  · rfl

theorem complete_obj (ms : List (String × JSON)) (k : String) (rest : List json.Frame)
    (v : JSON) :
    json.complete (.obj ms k :: rest) v = (.commaOrClose, .obj ((k, v) :: ms) k :: rest) := rfl

theorem membersTokens_cons (k : String) (v : JSON) (ms : List (String × JSON)) :
    json.membersTokens ((k, v) :: ms)
      = .str k :: .colon :: json.scalarToken v
        :: ms.flatMap (fun kv => [.comma, .str kv.1, .colon, json.scalarToken kv.2]) := by
  induction ms generalizing k v with
  | nil => rfl
  | cons m ms ih =>
    obtain ⟨k2, v2⟩ := m
    rw [json.membersTokens, ih k2 v2]
    rfl

/-- The parser on the members of an object after the first, up to the closing
brace. -/
theorem parseRun_members (ms : List (String × JSON)) :
    (∀ kv ∈ ms, json.Encoded kv.2) →
    ∀ (acc : List (String × JSON)) (k0 : String) (stack : List json.Frame)
      (rest : List json.Token),
    json.parseRun .commaOrClose (.obj acc k0 :: stack)
        (ms.flatMap (fun kv => [.comma, .str kv.1, .colon, json.scalarToken kv.2])
          ++ .rbrace :: rest)
      = json.parseRun (json.complete stack (.obj (acc.reverse ++ ms))).1
          (json.complete stack (.obj (acc.reverse ++ ms))).2 rest := by
  induction ms with
  | nil =>
    intro _ acc k0 stack rest
    simp only [List.flatMap_nil, List.nil_append, List.append_nil, parseRun_cons,
      json.parseStep]
  | cons m ms ih =>
    intro henc acc k0 stack rest
    obtain ⟨k, v⟩ := m
    have hv : json.Encoded v := henc (k, v) (List.mem_cons_self _ _)
    have henc2 : ∀ kv ∈ ms, json.Encoded kv.2 :=
      fun kv hkv => henc kv (List.mem_cons_of_mem _ hkv)
    simp only [List.flatMap_cons, List.cons_append, List.nil_append, parseRun_cons,
      json.parseStep, beginValue_scalar _ v hv, complete_obj]
    rw [ih henc2 ((k, v) :: acc) k stack rest]
    simp

/-- The parser reads the tokens of an object of encoded scalars, where a value
may begin and the nesting limit is not reached, as that object. -/
theorem parseRun_object (ms : List (String × JSON)) (henc : ∀ kv ∈ ms, json.Encoded kv.2)
    (ex : json.Expect) (hex : ex = .value ∨ ex = .valueOrClose) (stack : List json.Frame)
    (hdepth : stack.length + 1 ≤ json.maxNestingDepth) (rest : List json.Token) :
    json.parseRun ex stack (json.objectTokens ms ++ rest)
      = json.parseRun (json.complete stack (.obj ms)).1 (json.complete stack (.obj ms)).2
          rest := by
  have hopen : json.parseStep ex stack .lbrace = some (.keyOrClose, .obj [] "" :: stack) := by
    rcases hex with h | h <;> subst h <;> simp [json.parseStep, json.beginValue, hdepth]
  rw [json.objectTokens, List.cons_append, parseRun_cons, hopen]
  dsimp only
  cases ms with
  | nil =>
    simp only [json.membersTokens, List.nil_append, List.cons_append, parseRun_cons,
      json.parseStep, List.reverse_nil]
  | cons m ms =>
    obtain ⟨k, v⟩ := m
    have hv : json.Encoded v := henc (k, v) (List.mem_cons_self _ _)
    have henc2 : ∀ kv ∈ ms, json.Encoded kv.2 :=
      fun kv hkv => henc kv (List.mem_cons_of_mem _ hkv)
    rw [membersTokens_cons]
    simp only [List.cons_append, List.append_assoc, List.nil_append, parseRun_cons,
      json.parseStep, beginValue_scalar _ v hv, complete_obj]
    rw [parseRun_members ms henc2 [(k, v)] k stack rest]
    simp

/-- The text of an object of encoded scalars parses back to the object. -/
theorem parse_render_object (ms : List (String × JSON)) (henc : ∀ kv ∈ ms, json.Encoded kv.2) :
    json.parse (JSON.obj ms).render = some (JSON.obj ms) := by
  have hlex : json.tokenize (JSON.obj ms).render = some (json.objectTokens ms) := by
    have h := lexRun_object ms henc [] []
    simp only [List.append_nil] at h
    rw [json.tokenize, h]
    simp [json.lexRun]
  have hparse := parseRun_object ms henc .value (Or.inl rfl) [] (by decide) []
  simp only [List.append_nil] at hparse
  rw [json.parse, hlex]
  dsimp only
  rw [hparse]
  rfl

/-- The text `json.Marshal` writes for an animal parses back to the object of
its members. -/
theorem parse_render_animal (a : models.Animal) :
    json.parse (json.encodeAnimal a).render = some (JSON.obj (json.members a)) := by
  apply parse_render_object
  intro kv hkv
  obtain ⟨k, v⟩ := kv
  obtain ⟨f, _, _, hv⟩ := (mem_members_iff a k v).1 hkv
  rw [hv]
  exact encodeValue_encoded _

theorem renderList_cons (e : JSON) (es : List JSON) :
    JSON.render.renderList (e :: es) = e.render :: JSON.render.renderList es := by
  rw [JSON.render.renderList]

/-- The scanner on the objects of an array, from the first to the closing
bracket. -/
theorem lexRun_objects (mss : List (List (String × JSON))) :
    ∀ (ms : List (String × JSON)), (∀ l ∈ ms :: mss, ∀ kv ∈ l, json.Encoded kv.2) →
    ∀ (toks : List json.Token) (rest : List Char),
    json.lexRun .idle toks
        ((JSON.obj ms).render.data
          ++ ((JSON.render.renderList (mss.map JSON.obj)).flatMap (fun y => ',' :: y.data)
            ++ ']' :: rest))
      = json.lexRun .idle
          (.rbrack :: ((mss.flatMap (fun l => .comma :: json.objectTokens l)).reverse
            ++ ((json.objectTokens ms).reverse ++ toks))) rest := by
  induction mss with
  | nil =>
    intro ms henc toks rest
    rw [lexRun_object ms (henc ms (List.mem_cons_self _ _))]
    rfl
  | cons ms2 mss ih =>
    intro ms henc toks rest
    have henc2 : ∀ l ∈ ms2 :: mss, ∀ kv ∈ l, json.Encoded kv.2 :=
      fun l hl => henc l (List.mem_cons_of_mem _ hl)
    have h : (JSON.render.renderList ((ms2 :: mss).map JSON.obj)).flatMap
          (fun y => ',' :: y.data) ++ ']' :: rest
        = ',' :: ((JSON.obj ms2).render.data
          ++ ((JSON.render.renderList (mss.map JSON.obj)).flatMap (fun y => ',' :: y.data)
            ++ ']' :: rest)) := by
      rw [List.map_cons, renderList_cons, List.flatMap_cons]
      simp only [List.cons_append, List.append_assoc]
    rw [h, lexRun_object ms (henc ms (List.mem_cons_self _ _)), lexRun_cons]
    have h0 : ∀ t, json.lexStep .idle t ',' = some (.idle, .comma :: t) := fun _ => rfl
    rw [h0]
    dsimp only
    rw [ih ms2 henc2]
    simp

/-- The parser on the objects of an array after the first, up to the closing
bracket. -/
theorem parseRun_objects (mss : List (List (String × JSON))) :
    (∀ l ∈ mss, ∀ kv ∈ l, json.Encoded kv.2) →
    ∀ (acc : List JSON) (stack : List json.Frame), stack.length + 2 ≤ json.maxNestingDepth →
    ∀ (rest : List json.Token),
    json.parseRun .commaOrClose (.arr acc :: stack)
        (mss.flatMap (fun l => .comma :: json.objectTokens l) ++ .rbrack :: rest)
      = json.parseRun (json.complete stack (.arr (acc.reverse ++ mss.map JSON.obj))).1
          (json.complete stack (.arr (acc.reverse ++ mss.map JSON.obj))).2 rest := by
  induction mss with
  | nil =>
    intro _ acc stack _ rest
    simp only [List.flatMap_nil, List.nil_append, List.map_nil, List.append_nil, parseRun_cons,
      json.parseStep]
  | cons ms mss ih =>
    intro henc acc stack hdepth rest
    have henc2 : ∀ l ∈ mss, ∀ kv ∈ l, json.Encoded kv.2 :=
      fun l hl => henc l (List.mem_cons_of_mem _ hl)
    have hstep : json.parseStep .commaOrClose (.arr acc :: stack) .comma
        = some (.value, .arr acc :: stack) := rfl
    have hl : (ms :: mss).flatMap (fun l => json.Token.comma :: json.objectTokens l)
          ++ json.Token.rbrack :: rest
        = json.Token.comma :: (json.objectTokens ms
          ++ (mss.flatMap (fun l => json.Token.comma :: json.objectTokens l)
            ++ json.Token.rbrack :: rest)) := by
      simp only [List.flatMap_cons, List.cons_append, List.append_assoc]
    rw [hl, parseRun_cons, hstep]
    dsimp only
    rw [parseRun_object ms (henc ms (List.mem_cons_self _ _)) .value (Or.inl rfl)
      (.arr acc :: stack) (by simpa using hdepth)]
    have hc : json.complete (.arr acc :: stack) (JSON.obj ms)
        = (.commaOrClose, .arr (JSON.obj ms :: acc) :: stack) := rfl
    rw [hc]
    dsimp only
    rw [ih henc2 (JSON.obj ms :: acc) stack hdepth rest]
    simp

/-- The text of an array of objects of encoded scalars parses back to the
array. -/
theorem parse_render_objects (ms : List (String × JSON)) (mss : List (List (String × JSON)))
    (henc : ∀ l ∈ ms :: mss, ∀ kv ∈ l, json.Encoded kv.2) :
    json.parse (JSON.arr ((ms :: mss).map JSON.obj)).render
      = some (JSON.arr ((ms :: mss).map JSON.obj)) := by
  have hdata : (JSON.arr ((ms :: mss).map JSON.obj)).render.data
      = '[' :: ((JSON.obj ms).render.data
          ++ ((JSON.render.renderList (mss.map JSON.obj)).flatMap (fun y => ',' :: y.data)
            ++ ']' :: [])) := by
    rw [List.map_cons, JSON.render, renderList_cons]
    simp only [String.data_append, intercalate_comma_data, List.append_assoc]
    rfl
  have hlex : json.tokenize (JSON.arr ((ms :: mss).map JSON.obj)).render
      = some (.lbrack :: (json.objectTokens ms
          ++ (mss.flatMap (fun l => .comma :: json.objectTokens l) ++ [.rbrack]))) := by
    rw [json.tokenize, hdata, lexRun_cons]
    have h0 : json.lexStep .idle [] '[' = some (.idle, [.lbrack]) := rfl
    rw [h0]
    dsimp only
    rw [lexRun_objects mss ms henc]
    simp [json.lexRun]
  have henc2 : ∀ l ∈ mss, ∀ kv ∈ l, json.Encoded kv.2 :=
    fun l hl => henc l (List.mem_cons_of_mem _ hl)
  rw [json.parse, hlex]
  dsimp only
  have hopen : json.parseStep .value [] .lbrack = some (.valueOrClose, [.arr []]) := rfl
  rw [parseRun_cons, hopen]
  dsimp only
  rw [parseRun_object ms (henc ms (List.mem_cons_self _ _)) .valueOrClose (Or.inr rfl) [.arr []]
    (by decide)]
  have hc : json.complete [.arr []] (JSON.obj ms) = (.commaOrClose, [.arr [JSON.obj ms]]) := rfl
  rw [hc]
  dsimp only
  rw [parseRun_objects mss henc2 [JSON.obj ms] [] (by decide) []]
  rfl

theorem members_encoded (a : models.Animal) : ∀ kv ∈ json.members a, json.Encoded kv.2 := by
  intro kv hkv
  obtain ⟨k, v⟩ := kv
  obtain ⟨f, _, _, hv⟩ := (mem_members_iff a k v).1 hkv
  rw [hv]
  exact encodeValue_encoded _

/-- The text `json.Marshal` writes for a slice of animals parses back to the
value encoded: `null` for the nil slice, else the array of the objects of the
elements. -/
theorem parse_render_animals (all : List models.Animal) :
    json.parse (json.encodeAnimals all).render = some (json.encodeAnimals all) := by
  cases all with
  | nil => rfl
  | cons a rest =>
    have h : json.encodeAnimals (a :: rest)
        = JSON.arr ((json.members a :: rest.map json.members).map JSON.obj) := by
      simp [json.encodeAnimals, json.encodeAnimal, Function.comp_def]
    rw [h]
    apply parse_render_objects
    intro l hl
    rcases List.mem_cons.1 hl with h1 | h1
    · subst h1
      exact members_encoded a
    · obtain ⟨x, _, hx⟩ := List.mem_map.1 h1
      subst hx
      exact members_encoded x

/-- C8: the object `json.Marshal` writes for an animal (its text is the members
`"key":value` joined by commas between braces, and parses back to exactly
these members) has the key of an optional attribute exactly when that
attribute is not nil, always has the keys id, name, species, arrivalDate and
status, has no key twice and no member whose value is `null`; a member that is
written carries the encoding of the attribute's value.  A slice that is not
empty is written as the array of the objects of its elements (and its text
parses back to that array), so the same holds for each of them. -/
theorem marshal_omits_nil_optionals (a : models.Animal) (all : List models.Animal) :
    json.MarshalAnimal a = .ok ("\x7b" ++ ",".intercalate
      (JSON.render.renderMembers (json.members a)) ++ "\x7d") ∧
    ("id" ∈ (json.members a).map Prod.fst ∧ "name" ∈ (json.members a).map Prod.fst ∧
      "species" ∈ (json.members a).map Prod.fst ∧
      "arrivalDate" ∈ (json.members a).map Prod.fst ∧
      "status" ∈ (json.members a).map Prod.fst) ∧
    (("breed" ∈ (json.members a).map Prod.fst ↔ a.Breed ≠ none) ∧
      ("age" ∈ (json.members a).map Prod.fst ↔ a.Age ≠ none) ∧
      ("sex" ∈ (json.members a).map Prod.fst ↔ a.Sex ≠ none) ∧
      ("description" ∈ (json.members a).map Prod.fst ↔ a.Description ≠ none) ∧
      ("healthStatus" ∈ (json.members a).map Prod.fst ↔ a.HealthStatus ≠ none) ∧
      ("sterilisationStatus" ∈ (json.members a).map Prod.fst ↔
        a.SterilisationStatus ≠ none) ∧
      ("chipNumber" ∈ (json.members a).map Prod.fst ↔ a.ChipNumber ≠ none) ∧
      ("internalNotes" ∈ (json.members a).map Prod.fst ↔ a.InternalNotes ≠ none) ∧
      ("reasonOnboarded" ∈ (json.members a).map Prod.fst ↔ a.ReasonOnboarded ≠ none) ∧
      ("latestVaccinationDate" ∈ (json.members a).map Prod.fst ↔
        a.LatestVaccinationDate ≠ none) ∧
      ("currentLocation" ∈ (json.members a).map Prod.fst ↔ a.CurrentLocation ≠ none)) ∧
    ((json.members a).map Prod.fst).Nodup ∧
    (∀ k v, (k, v) ∈ json.members a →
      v ≠ JSON.null ∧ ∃ f : models.Field, k = f.jsonName ∧ v = json.encodeValue (a.field f)) ∧
    json.MarshalAnimals all = .ok (json.encodeAnimals all).render ∧
    (all ≠ [] →
      json.encodeAnimals all = JSON.arr (all.map (fun x => JSON.obj (json.members x)))) ∧
    (∃ body, json.MarshalAnimal a = .ok body ∧
      json.parse body = some (JSON.obj (json.members a))) ∧
    (∃ body, json.MarshalAnimals all = .ok body ∧
      json.parse body = some (json.encodeAnimals all)) := by
  refine ⟨rfl, ⟨?_, ?_, ?_, ?_, ?_⟩, ⟨?_, ?_, ?_, ?_, ?_, ?_, ?_, ?_, ?_, ?_, ?_⟩,
    keys_members_nodup a, ?_, rfl, ?_, ⟨_, rfl, parse_render_animal a⟩,
    ⟨_, rfl, parse_render_animals all⟩⟩
  · exact (key_mem_members_iff a .ID).2 (by simp [models.Field.omitEmpty])
  · exact (key_mem_members_iff a .Name).2 (by simp [models.Field.omitEmpty])
  · exact (key_mem_members_iff a .Species).2 (by simp [models.Field.omitEmpty])
  · exact (key_mem_members_iff a .ArrivalDate).2 (by simp [models.Field.omitEmpty])
  · exact (key_mem_members_iff a .Status).2 (by simp [models.Field.omitEmpty])
  · exact (key_mem_members_iff a .Breed).trans (by
      cases h : a.Breed <;>
        simp [models.Field.omitEmpty, models.Animal.field, json.isEmptyValue, h])
  · exact (key_mem_members_iff a .Age).trans (by
      cases h : a.Age <;>
        simp [models.Field.omitEmpty, models.Animal.field, json.isEmptyValue, h])
  · exact (key_mem_members_iff a .Sex).trans (by
      cases h : a.Sex <;>
        simp [models.Field.omitEmpty, models.Animal.field, json.isEmptyValue, h])
  · exact (key_mem_members_iff a .Description).trans (by
      cases h : a.Description <;>
        simp [models.Field.omitEmpty, models.Animal.field, json.isEmptyValue, h])
  · exact (key_mem_members_iff a .HealthStatus).trans (by
      cases h : a.HealthStatus <;>
        simp [models.Field.omitEmpty, models.Animal.field, json.isEmptyValue, h])
  · exact (key_mem_members_iff a .SterilisationStatus).trans (by
      cases h : a.SterilisationStatus <;>
        simp [models.Field.omitEmpty, models.Animal.field, json.isEmptyValue, h])
  · exact (key_mem_members_iff a .ChipNumber).trans (by
      cases h : a.ChipNumber <;>
        simp [models.Field.omitEmpty, models.Animal.field, json.isEmptyValue, h])
  · exact (key_mem_members_iff a .InternalNotes).trans (by
      cases h : a.InternalNotes <;>
        simp [models.Field.omitEmpty, models.Animal.field, json.isEmptyValue, h])
  · exact (key_mem_members_iff a .ReasonOnboarded).trans (by
      cases h : a.ReasonOnboarded <;>
        simp [models.Field.omitEmpty, models.Animal.field, json.isEmptyValue, h])
  · exact (key_mem_members_iff a .LatestVaccinationDate).trans (by
      cases h : a.LatestVaccinationDate <;>
        simp [models.Field.omitEmpty, models.Animal.field, json.isEmptyValue, h])
  · exact (key_mem_members_iff a .CurrentLocation).trans (by
      cases h : a.CurrentLocation <;>
        simp [models.Field.omitEmpty, models.Animal.field, json.isEmptyValue, h])
  · intro k v hmem
    obtain ⟨f, hc, hk, hv⟩ := (mem_members_iff a k v).1 hmem
    refine ⟨?_, f, hk, hv⟩
    subst hv
    intro hnull
    exact hc ⟨encodeValue_null_omitEmpty a f hnull, encodeValue_null_isEmpty _ hnull⟩
  · intro h
    cases all with
    | nil => exact absurd rfl h
    | cons x rest => rfl

/-- Instances of C8: the example animal, all of whose attributes are set, has
the key `breed`; the zero animal has not; a slice of the two is written as the
array of their objects. -/
theorem marshal_omits_nil_optionals_witness :
    "breed" ∈ (json.members models.Animal.example).map Prod.fst ∧
    "breed" ∉ (json.members models.Animal.zero).map Prod.fst ∧
    json.encodeAnimals [models.Animal.zero, models.Animal.example]
      = JSON.arr [JSON.obj (json.members models.Animal.zero),
          JSON.obj (json.members models.Animal.example)] :=
  ⟨(marshal_omits_nil_optionals models.Animal.example []).2.2.1.1.2 (by decide),
   fun h => (marshal_omits_nil_optionals models.Animal.zero []).2.2.1.1.1 h rfl,
   (marshal_omits_nil_optionals models.Animal.zero
      [models.Animal.zero, models.Animal.example]).2.2.2.2.2.2.1 (by simp)⟩

/-! ## Decoding leaves unnamed fields alone -/

/-- Storing into one field leaves every other field as it was. -/
theorem storeField_field_ne (a a2 : models.Animal) (g f : models.Field) (v : JSON)
    (h : json.storeField a g v = .ok a2) (hne : f ≠ g) : a2.field f = a.field f := by
  cases g <;> simp only [json.storeField, Except.map] at h <;> split at h <;> cases h <;>
    cases f <;> first | rfl | exact absurd rfl hne

/-- A field that no key of the object names keeps the value it had before the
decoding. -/
theorem decodeObject_field_untouched (ms : List (String × JSON)) (a a2 : models.Animal)
    (f : models.Field) (h : json.decodeObject ms a = .ok a2)
    (hkeys : ∀ kv ∈ ms, json.fieldOf kv.1 ≠ some f) : a2.field f = a.field f := by
  induction ms generalizing a with
  | nil =>
    simp only [json.decodeObject] at h
    cases h
    rfl
  | cons kv rest ih =>
    obtain ⟨k, v⟩ := kv
    have hk : json.fieldOf k ≠ some f := hkeys (k, v) (List.mem_cons_self _ _)
    have hrest : ∀ kv ∈ rest, json.fieldOf kv.1 ≠ some f :=
      fun kv hkv => hkeys kv (List.mem_cons_of_mem _ hkv)
    simp only [json.decodeObject] at h
    split at h
    · exact ih a h hrest
    · rename_i g hg
      split at h
      · cases h
      · rename_i a3 h3
        rw [ih a3 h hrest]
        exact storeField_field_ne a a3 g f v h3 (fun hfg => hk (by rw [hg, hfg]))

/-! ## Create -/

/-- The text written for the animal of the scenario with identifier `n`. -/
theorem fido_render (n : Int) :
    (json.encodeAnimal { spec.fido with ID := n }).render
      = "\x7b\"id\":" ++ strconv.Itoa n
        ++ ",\"name\":\"Fido\",\"species\":\"Dog\",\"arrivalDate\":\"2024-01-01\",\"status\":\"available\"\x7d" := by
  have h : (json.encodeAnimal { spec.fido with ID := n }).render
      = "\x7b" ++ (((((((("\"id\"" ++ ":" ++ strconv.Itoa n) ++ ",") ++ "\"name\":\"Fido\"")
          ++ ",") ++ "\"species\":\"Dog\"") ++ ",") ++ "\"arrivalDate\":\"2024-01-01\"") ++ ","
          ++ "\"status\":\"available\"") ++ "\x7d" := rfl
  rw [h]
  apply String.ext
  simp only [String.data_append, List.append_assoc]
  rfl

/-- C9: a POST whose body decodes to the animal `A`, against a store whose
insert returns a first row that scans to the identifier `n`, is answered 201
with the encoding of `A` with `ID` set to `n`.  The insert sent is bound from
the fifteen attributes of `A` other than id, and so does not depend on the id
of the payload; the response body parses back to the object whose members
after `id` are those of `A` and whose member `id` carries `n`.  For the body of the scenario of section 8 the response body
is the object with exactly the keys id, name, species, arrivalDate, status, in
that order, and no key of an optional attribute. -/
theorem create_returns_store_id {σ : Type} (drv : sql.Driver σ)
    (request : events.APIGatewayProxyRequest) (w : World σ) (A : models.Animal)
    (row : sql.Row) (rest : List sql.Row) (n : Int)
    (hmethod : request.HTTPMethod = "POST")
    (hdecode : json.Unmarshal request.Body models.Animal.zero = .ok A)
    (hstore : (drv.query w.store db.insertSQL (db.animalArgs A)).1 = .ok (row :: rest))
    (hscan : sql.scanID row = .ok n) :
    (∃ body, json.MarshalAnimal { A with ID := n } = .ok body ∧
      (handleRequest drv request w).response = { StatusCode := 201, Body := body } ∧
      json.parse body = some (JSON.obj (json.members { A with ID := n }))) ∧
    (handleRequest drv request w).world.calls
      = w.calls ++ [sql.Call.QueryRow db.insertSQL (bindInOrder models.Field.nonID A)] ∧
    (∀ k : Int, bindInOrder models.Field.nonID { A with ID := k }
      = bindInOrder models.Field.nonID A) ∧
    json.members { A with ID := n }
      = ("id", JSON.num (strconv.Itoa n)) :: (json.members A).tail ∧
    (∀ f : models.Field, f ≠ models.Field.ID →
      ({ A with ID := n } : models.Animal).field f = A.field f) ∧
    ({ A with ID := n } : models.Animal).field models.Field.ID = GoValue.int n ∧
    (request.Body = spec.fidoBody →
      A = spec.fido ∧
      (handleRequest drv request w).response
        = { StatusCode := 201,
            Body := "\x7b\"id\":" ++ strconv.Itoa n
              ++ ",\"name\":\"Fido\",\"species\":\"Dog\",\"arrivalDate\":\"2024-01-01\",\"status\":\"available\"\x7d" } ∧
      (json.members { A with ID := n }).map Prod.fst
        = ["id", "name", "species", "arrivalDate", "status"]) := by
  have hresp : (handleRequest drv request w).response
      = { StatusCode := 201, Body := (json.encodeAnimal { A with ID := n }).render } := by
    rw [handleRequest_post drv request w hmethod]
    dsimp only
    rw [animals_CreateAnimal_response_ok drv request.Body w A hdecode, db_CreateAnimal_result,
      Row_Scan_answer_cons drv _ _ w sql.scanID row rest hstore, hscan]
  refine ⟨⟨_, rfl, hresp, parse_render_animal _⟩, ?_, fun _ => rfl, rfl, ?_, rfl, ?_⟩
  · rw [handleRequest_post drv request w hmethod]
    dsimp only
    rw [animals_CreateAnimal_world_ok drv request.Body w A hdecode, db_CreateAnimal_world]
    rfl
  · intro f hf
    cases f <;> first | rfl | exact absurd rfl hf
  · intro hbody
    have hA : A = spec.fido := by
      rw [hbody] at hdecode
      have h2 : json.Unmarshal spec.fidoBody models.Animal.zero = .ok spec.fido := rfl
      rw [h2] at hdecode
      injection hdecode with hdecode
      exact hdecode.symm
    subst hA
    exact ⟨rfl, by rw [hresp, fido_render], rfl⟩

/-- Instances of C9 against a store whose insert returns the row `(7)`: the
body of the scenario is answered 201 with id 7 and no optional key, and a body
that supplies `"id":99` is answered with id 7 as well. -/
theorem create_returns_store_id_witness :
    (handleRequest (sql.Driver.answering [[sql.Value.int 7]] 1)
      { HTTPMethod := "POST", PathParameters := [], Body := spec.fidoBody }
      World.initial).response
      = { StatusCode := 201,
          Body := "\x7b\"id\":7,\"name\":\"Fido\",\"species\":\"Dog\",\"arrivalDate\":\"2024-01-01\",\"status\":\"available\"\x7d" } ∧
    (handleRequest (sql.Driver.answering [[sql.Value.int 7]] 1)
      { HTTPMethod := "POST", PathParameters := [],
        Body := "\x7b\"id\":99,\"name\":\"Fido\"\x7d" }
      World.initial).response
      = { StatusCode := 201,
          Body := "\x7b\"id\":7,\"name\":\"Fido\",\"species\":\"\",\"arrivalDate\":\"\",\"status\":\"\"\x7d" } := by
  refine ⟨?_, ?_⟩
  · exact ((create_returns_store_id (sql.Driver.answering [[sql.Value.int 7]] 1)
      { HTTPMethod := "POST", PathParameters := [], Body := spec.fidoBody } World.initial
      spec.fido [sql.Value.int 7] [] 7 rfl rfl rfl rfl).2.2.2.2.2.2 rfl).2.1
  · obtain ⟨body, hbody, hresp, _⟩ :=
      (create_returns_store_id (sql.Driver.answering [[sql.Value.int 7]] 1)
        { HTTPMethod := "POST", PathParameters := [],
          Body := "\x7b\"id\":99,\"name\":\"Fido\"\x7d" } World.initial
        { models.Animal.zero with ID := 99, Name := "Fido" } [sql.Value.int 7] [] 7
        rfl rfl rfl rfl).1
    rw [hresp]
    injection hbody with hbody
    subst hbody
    rfl

/-! ## Replace -/

/-- The zero animal holds the nil pointer in every field tagged `omitempty`. -/
theorem zero_field_bind_null (f : models.Field) (h : f.omitEmpty = true) :
    sql.bind (models.Animal.zero.field f) = sql.Value.null := by
  cases f <;> first | rfl | (revert h; decide)

/-- C10: a PATCH whose path identifier parses to `id` and whose body decodes to
the animal `A` sends exactly the update statement bound from the fifteen
attributes of `A` other than id, in declaration order, followed by `id` as row
selector; neither depends on the store or on the id of the payload.  An
optional attribute that no key of the payload object names is bound as NULL.
Whenever the exec returns without error, whatever the number of rows affected
(zero included), the response is 200 with the encoding of `A` with `ID` set
to `id`. -/
theorem replace_is_full_overwrite {σ : Type} (drv : sql.Driver σ)
    (request : events.APIGatewayProxyRequest) (w : World σ) (s : String) (id : Int)
    (A : models.Animal)
    (hmethod : request.HTTPMethod = "PATCH")
    (hid : request.PathParameters.lookup "id" = some s)
    (hparse : strconv.Atoi s = some id)
    (hdecode : json.Unmarshal request.Body models.Animal.zero = .ok A) :
    (handleRequest drv request w).world.calls
      = w.calls ++ [sql.Call.Exec db.updateSQL
          (bindInOrder models.Field.nonID A ++ [sql.Value.int id])] ∧
    (∀ k : Int, bindInOrder models.Field.nonID { A with ID := k }
      = bindInOrder models.Field.nonID A) ∧
    (∀ (ms : List (String × JSON)) (f : models.Field),
      json.parse request.Body = some (JSON.obj ms) → f.omitEmpty = true →
      (∀ kv ∈ ms, json.fieldOf kv.1 ≠ some f) →
      sql.bind (A.field f) = sql.Value.null ∧
      sql.bind (A.field f) ∈ bindInOrder models.Field.nonID A) ∧
    (∀ affected : Nat,
      (drv.exec w.store db.updateSQL (db.animalArgs A ++ [sql.Value.int id])).1 = .ok affected →
      ∃ body, json.MarshalAnimal { A with ID := id } = .ok body ∧
        (handleRequest drv request w).response = { StatusCode := 200, Body := body } ∧
        json.parse body = some (JSON.obj (json.members { A with ID := id }))) ∧
    json.members { A with ID := id }
      = ("id", JSON.num (strconv.Itoa id)) :: (json.members A).tail := by
  refine ⟨?_, fun _ => rfl, ?_, ?_, rfl⟩
  · rw [handleRequest_patch drv request w s id hmethod hid hparse]
    dsimp only
    rw [animals_UpdateAnimal_world_ok drv id request.Body w A hdecode, db_UpdateAnimal_world]
    rfl
  · intro ms f hparsed hopt hkeys
    have hdec : json.decodeObject ms models.Animal.zero = .ok A := by
      unfold json.Unmarshal at hdecode
      rw [hparsed] at hdecode
      exact hdecode
    have hfield := decodeObject_field_untouched ms models.Animal.zero A f hdec hkeys
    refine ⟨by rw [hfield]; exact zero_field_bind_null f hopt, ?_⟩
    unfold bindInOrder
    refine List.mem_map.2 ⟨f, ?_, rfl⟩
    cases f <;> (revert hopt; decide)
  · intro affected hexec
    refine ⟨_, rfl, ?_, parse_render_animal _⟩
    rw [handleRequest_patch drv request w s id hmethod hid hparse]
    dsimp only
    rw [animals_UpdateAnimal_response_ok drv id request.Body w A hdecode, db_UpdateAnimal_result,
      hexec]

/-- Instance of C10: PATCH of `{"id":99,"name":"Rex"}` to `/animals/12` against
a store whose exec affects no row: the update binds NULL for every optional
attribute and 12 as selector, and the response is 200 with id 12. -/
theorem replace_is_full_overwrite_witness :
    (handleRequest (sql.Driver.answering [] 0)
      { HTTPMethod := "PATCH", PathParameters := [("id", "12")],
        Body := "\x7b\"id\":99,\"name\":\"Rex\"\x7d" } World.initial).world.calls
      = [sql.Call.Exec db.updateSQL
          [.text "Rex", .text "", .null, .null, .null, .null, .text "", .null, .null, .null,
           .null, .null, .null, .null, .text "", .int 12]] ∧
    (handleRequest (sql.Driver.answering [] 0)
      { HTTPMethod := "PATCH", PathParameters := [("id", "12")],
        Body := "\x7b\"id\":99,\"name\":\"Rex\"\x7d" } World.initial).response
      = { StatusCode := 200,
          Body := "\x7b\"id\":12,\"name\":\"Rex\",\"species\":\"\",\"arrivalDate\":\"\",\"status\":\"\"\x7d" } := by
  have h := replace_is_full_overwrite (sql.Driver.answering [] 0)
    { HTTPMethod := "PATCH", PathParameters := [("id", "12")],
      Body := "\x7b\"id\":99,\"name\":\"Rex\"\x7d" } World.initial "12" 12
    { models.Animal.zero with ID := 99, Name := "Rex" } rfl rfl rfl rfl
  refine ⟨h.1, ?_⟩
  obtain ⟨body, hbody, hresp, _⟩ := h.2.2.2.1 0 rfl
  rw [hresp]
  injection hbody with hbody
  subst hbody
  rfl

/-! ## Decoding: absent, explicit null, present -/

/-- Decoding the members of an object in two parts. -/
theorem decodeObject_append (l1 l2 : List (String × JSON)) (a : models.Animal) :
    json.decodeObject (l1 ++ l2) a =
      match json.decodeObject l1 a with
      | .error e => .error e
      | .ok a1 => json.decodeObject l2 a1 := by
  induction l1 generalizing a with
  | nil => rfl
  | cons kv rest ih =>
    obtain ⟨k, v⟩ := kv
    simp only [List.cons_append, json.decodeObject]
    split
    · exact ih a
    · split
      · rfl
      · rename_i a2 _
        exact ih a2

/-- Every field of the zero animal is empty; a pointer field is nil. -/
theorem zero_field_isEmpty (f : models.Field) :
    json.isEmptyValue (models.Animal.zero.field f) = true := by
  cases f <;> rfl

/-- Storing `null` into a pointer field that is nil changes nothing. -/
theorem storeField_null_of_nil (a : models.Animal) (f : models.Field)
    (hopt : f.omitEmpty = true) (hnil : json.isEmptyValue (a.field f) = true) :
    json.storeField a f JSON.null = .ok a := by
  obtain ⟨id, name, species, breed, age, sex, description, arrivalDate, healthStatus,
    sterilisationStatus, chipNumber, internalNotes, reasonOnboarded, latestVaccinationDate,
    currentLocation, status⟩ := a
  cases f <;> first
    | exact absurd hopt (by decide)
    | (simp only [models.Animal.field, json.isEmptyValue, Option.isNone_iff_eq_none] at hnil
       subst hnil
       rfl)

/-- Storing a value other than `null` into a pointer field leaves it non-nil. -/
theorem storeField_present (a a2 : models.Animal) (f : models.Field) (v : JSON)
    (hopt : f.omitEmpty = true) (hv : v ≠ JSON.null) (h : json.storeField a f v = .ok a2) :
    json.isEmptyValue (a2.field f) = false := by
  cases f <;> first
    | exact absurd hopt (by decide)
    | (simp only [json.storeField, Except.map] at h
       split at h <;> cases h
       rename_i x hx
       cases v <;>
         simp only [json.storeStringPtr, json.storeIntPtr, json.storeBoolPtr] at hx <;>
         first
           | exact absurd rfl hv
           | (cases hx; done)
           | (cases hx; rfl)
           | (split at hx <;> cases hx; rfl))

/-- Storing a value other than `null` into a pointer field stores a pointer to
that value: to the string, to the integer the number literal denotes, or to the
boolean; no other value is stored. -/
theorem storeField_value (a a2 : models.Animal) (f : models.Field) (v : JSON)
    (hopt : f.omitEmpty = true) (hv : v ≠ JSON.null) (h : json.storeField a f v = .ok a2) :
    (∀ s, v = JSON.str s → a2.field f = GoValue.stringPtr (some s)) ∧
    (∀ lit, v = JSON.num lit →
      ∃ n, strconv.Atoi lit = some n ∧ a2.field f = GoValue.intPtr (some n)) ∧
    (∀ x, v = JSON.bool x → a2.field f = GoValue.boolPtr (some x)) ∧
    ((∃ s, v = JSON.str s) ∨ (∃ lit, v = JSON.num lit) ∨ (∃ x, v = JSON.bool x)) := by
  cases f <;> first
    | exact absurd hopt (by decide)
    | (simp only [json.storeField, Except.map] at h
       split at h <;> cases h
       rename_i x hx
       cases v <;>
         simp only [json.storeStringPtr, json.storeIntPtr, json.storeBoolPtr] at hx <;>
         first
           | exact absurd rfl hv
           | (cases hx; done)
           | (cases hx
              refine ⟨?_, ?_, ?_, ?_⟩
              · intro s hs
                cases hs
                rfl
              · intro lit hlit
                cases hlit
              · intro y hy
                cases hy
              · exact Or.inl ⟨_, rfl⟩)
           | (cases hx
              refine ⟨?_, ?_, ?_, ?_⟩
              · intro s hs
                cases hs
              · intro lit hlit
                cases hlit
              · intro y hy
                cases hy
                rfl
              · exact Or.inr (Or.inr ⟨_, rfl⟩))
           | (split at hx <;> cases hx
              rename_i n hn
              refine ⟨?_, ?_, ?_, ?_⟩
              · intro s hs
                cases hs
              · intro lit hlit
                cases hlit
                exact ⟨n, hn, rfl⟩
              · intro y hy
                cases hy
              · exact Or.inr (Or.inl ⟨_, rfl⟩)))

theorem Unmarshal_of_parse_obj (body : String) (ms : List (String × JSON)) (a : models.Animal)
    (h : json.parse body = some (JSON.obj ms)) :
    json.Unmarshal body a = json.decodeObject ms a := by
  unfold json.Unmarshal
  rw [h]

/-- An explicit `null` for a pointer field that no earlier key names decodes
like the object without that member. -/
theorem decodeObject_null_absent (f : models.Field) (k : String)
    (pre post : List (String × JSON)) (a : models.Animal)
    (hopt : f.omitEmpty = true) (hk : json.fieldOf k = some f)
    (hnil : json.isEmptyValue (a.field f) = true)
    (hpre : ∀ kv ∈ pre, json.fieldOf kv.1 ≠ some f) :
    json.decodeObject (pre ++ (k, JSON.null) :: post) a = json.decodeObject (pre ++ post) a := by
  rw [decodeObject_append, decodeObject_append]
  cases h1 : json.decodeObject pre a with
  | error e => rfl
  | ok a1 =>
    have hfield : a1.field f = a.field f := decodeObject_field_untouched pre a a1 f h1 hpre
    have hstore : json.storeField a1 f JSON.null = .ok a1 :=
      storeField_null_of_nil a1 f hopt (by rw [hfield]; exact hnil)
    simp only [json.decodeObject, hk, hstore]

/-- A value other than `null` for a pointer field that no later key names is
stored by `json.storeField` and the field is as stored in the result. -/
theorem decodeObject_present (f : models.Field) (k : String) (v : JSON)
    (pre post : List (String × JSON)) (a b : models.Animal)
    (hk : json.fieldOf k = some f)
    (hpost : ∀ kv ∈ post, json.fieldOf kv.1 ≠ some f)
    (h : json.decodeObject (pre ++ (k, v) :: post) a = .ok b) :
    ∃ a1 a2, json.decodeObject pre a = .ok a1 ∧ json.storeField a1 f v = .ok a2 ∧
      b.field f = a2.field f := by
  rw [decodeObject_append] at h
  cases h1 : json.decodeObject pre a with
  | error e =>
    rw [h1] at h
    cases h
  | ok a1 =>
    rw [h1] at h
    simp only [json.decodeObject, hk] at h
    cases h2 : json.storeField a1 f v with
    | error e =>
      rw [h2] at h
      cases h
    | ok a2 =>
      rw [h2] at h
      exact ⟨a1, a2, rfl, h2, decodeObject_field_untouched post a2 b f h hpost⟩

/-- C11 as stated fails: for each of the eleven optional attributes, the body
that gives the attribute as `null` and the body that omits it decode to the
same animal, the one whose only set attribute is the name. -/
theorem absent_and_null_decode_alike :
    json.Unmarshal "\x7b\"name\":\"Rex\",\"breed\":null\x7d" models.Animal.zero
      = json.Unmarshal "\x7b\"name\":\"Rex\"\x7d" models.Animal.zero ∧
    json.Unmarshal "\x7b\"name\":\"Rex\",\"age\":null\x7d" models.Animal.zero
      = json.Unmarshal "\x7b\"name\":\"Rex\"\x7d" models.Animal.zero ∧
    json.Unmarshal "\x7b\"name\":\"Rex\",\"sex\":null\x7d" models.Animal.zero
      = json.Unmarshal "\x7b\"name\":\"Rex\"\x7d" models.Animal.zero ∧
    json.Unmarshal "\x7b\"name\":\"Rex\",\"description\":null\x7d" models.Animal.zero
      = json.Unmarshal "\x7b\"name\":\"Rex\"\x7d" models.Animal.zero ∧
    json.Unmarshal "\x7b\"name\":\"Rex\",\"healthStatus\":null\x7d" models.Animal.zero
      = json.Unmarshal "\x7b\"name\":\"Rex\"\x7d" models.Animal.zero ∧
    json.Unmarshal "\x7b\"name\":\"Rex\",\"sterilisationStatus\":null\x7d" models.Animal.zero
      = json.Unmarshal "\x7b\"name\":\"Rex\"\x7d" models.Animal.zero ∧
    json.Unmarshal "\x7b\"name\":\"Rex\",\"chipNumber\":null\x7d" models.Animal.zero
      = json.Unmarshal "\x7b\"name\":\"Rex\"\x7d" models.Animal.zero ∧
    json.Unmarshal "\x7b\"name\":\"Rex\",\"internalNotes\":null\x7d" models.Animal.zero
      = json.Unmarshal "\x7b\"name\":\"Rex\"\x7d" models.Animal.zero ∧
    json.Unmarshal "\x7b\"name\":\"Rex\",\"reasonOnboarded\":null\x7d" models.Animal.zero
      = json.Unmarshal "\x7b\"name\":\"Rex\"\x7d" models.Animal.zero ∧
    json.Unmarshal "\x7b\"name\":\"Rex\",\"latestVaccinationDate\":null\x7d" models.Animal.zero
      = json.Unmarshal "\x7b\"name\":\"Rex\"\x7d" models.Animal.zero ∧
    json.Unmarshal "\x7b\"name\":\"Rex\",\"currentLocation\":null\x7d" models.Animal.zero
      = json.Unmarshal "\x7b\"name\":\"Rex\"\x7d" models.Animal.zero ∧
    json.Unmarshal "\x7b\"name\":\"Rex\"\x7d" models.Animal.zero
      = .ok { models.Animal.zero with Name := "Rex" } :=
  ⟨rfl, rfl, rfl, rfl, rfl, rfl, rfl, rfl, rfl, rfl, rfl, rfl⟩

/-- C11, amended: for each optional attribute, decoding distinguishes two input
states, not three.  Of three bodies that differ only in the member of the
attribute (omitted, given as `null`, given a value other than `null`), the
first two decode alike, to an animal in which the attribute is the nil pointer
when the decoding succeeds, and the third, when its decoding succeeds, gives an
animal in which the attribute is a non-nil pointer to the value given (the
string, the integer the number literal denotes, or the boolean), hence a
different animal.  The empty string, zero and `false` are such values: they
decode to pointers to `""`, `0` and `false`. -/
theorem decode_nil_or_present (f : models.Field) (k : String)
    (pre post : List (String × JSON)) (v : JSON)
    (bodyAbsent bodyNull bodyPresent : String)
    (hopt : f.omitEmpty = true) (hk : json.fieldOf k = some f)
    (hpre : ∀ kv ∈ pre, json.fieldOf kv.1 ≠ some f)
    (hpost : ∀ kv ∈ post, json.fieldOf kv.1 ≠ some f)
    (hv : v ≠ JSON.null)
    (habsent : json.parse bodyAbsent = some (JSON.obj (pre ++ post)))
    (hnull : json.parse bodyNull = some (JSON.obj (pre ++ (k, JSON.null) :: post)))
    (hpresent : json.parse bodyPresent = some (JSON.obj (pre ++ (k, v) :: post))) :
    json.Unmarshal bodyNull models.Animal.zero = json.Unmarshal bodyAbsent models.Animal.zero ∧
    (∀ a, json.Unmarshal bodyAbsent models.Animal.zero = .ok a →
      json.isEmptyValue (a.field f) = true ∧ sql.bind (a.field f) = sql.Value.null) ∧
    (∀ b, json.Unmarshal bodyPresent models.Animal.zero = .ok b →
      json.isEmptyValue (b.field f) = false ∧
      (∀ s, v = JSON.str s → b.field f = GoValue.stringPtr (some s)) ∧
      (∀ lit, v = JSON.num lit →
        ∃ n, strconv.Atoi lit = some n ∧ b.field f = GoValue.intPtr (some n)) ∧
      (∀ x, v = JSON.bool x → b.field f = GoValue.boolPtr (some x)) ∧
      ((∃ s, v = JSON.str s) ∨ (∃ lit, v = JSON.num lit) ∨ (∃ x, v = JSON.bool x))) ∧
    (∀ a b, json.Unmarshal bodyAbsent models.Animal.zero = .ok a →
      json.Unmarshal bodyPresent models.Animal.zero = .ok b → a ≠ b) ∧
    json.Unmarshal "\x7b\"breed\":\"\"\x7d" models.Animal.zero
      = .ok { models.Animal.zero with Breed := some "" } ∧
    json.Unmarshal "\x7b\"age\":0\x7d" models.Animal.zero
      = .ok { models.Animal.zero with Age := some 0 } ∧
    json.Unmarshal "\x7b\"sterilisationStatus\":false\x7d" models.Animal.zero
      = .ok { models.Animal.zero with SterilisationStatus := some false } := by
  have hA : ∀ a, json.Unmarshal bodyAbsent models.Animal.zero = .ok a →
      json.isEmptyValue (a.field f) = true := by
    intro a ha
    rw [Unmarshal_of_parse_obj bodyAbsent _ _ habsent] at ha
    have hkeys : ∀ kv ∈ pre ++ post, json.fieldOf kv.1 ≠ some f := by
      intro kv hkv
      rcases List.mem_append.1 hkv with h | h
      · exact hpre kv h
      · exact hpost kv h
    rw [decodeObject_field_untouched _ _ a f ha hkeys]
    exact zero_field_isEmpty f
  have hB : ∀ b, json.Unmarshal bodyPresent models.Animal.zero = .ok b →
      json.isEmptyValue (b.field f) = false ∧
      (∀ s, v = JSON.str s → b.field f = GoValue.stringPtr (some s)) ∧
      (∀ lit, v = JSON.num lit →
        ∃ n, strconv.Atoi lit = some n ∧ b.field f = GoValue.intPtr (some n)) ∧
      (∀ x, v = JSON.bool x → b.field f = GoValue.boolPtr (some x)) ∧
      ((∃ s, v = JSON.str s) ∨ (∃ lit, v = JSON.num lit) ∨ (∃ x, v = JSON.bool x)) := by
    intro b hb
    rw [Unmarshal_of_parse_obj bodyPresent _ _ hpresent] at hb
    obtain ⟨a1, a2, _, hstore, hfield⟩ := decodeObject_present f k v pre post _ b hk hpost hb
    rw [hfield]
    exact ⟨storeField_present a1 a2 f v hopt hv hstore,
      storeField_value a1 a2 f v hopt hv hstore⟩
  refine ⟨?_, ?_, hB, ?_, rfl, rfl, rfl⟩
  · rw [Unmarshal_of_parse_obj bodyNull _ _ hnull, Unmarshal_of_parse_obj bodyAbsent _ _ habsent]
    exact decodeObject_null_absent f k pre post _ hopt hk (zero_field_isEmpty f) hpre
  · intro a ha
    refine ⟨hA a ha, ?_⟩
    have h := hA a ha
    revert h
    cases f <;> first
      | exact absurd hopt (by decide)
      | (simp only [models.Animal.field, json.isEmptyValue, Option.isNone_iff_eq_none]
         intro h
         rw [h]
         rfl)
  · intro a b ha hb hab
    have h1 := hA a ha
    have h2 := (hB b hb).1
    rw [hab, h2] at h1
    cases h1

/-- Instance of C11, amended, at the attribute breed: of the bodies
`{"name":"Rex"}`, `{"name":"Rex","breed":null}` and `{"name":"Rex","breed":""}`
the first two decode alike and the third decodes to a different animal, whose
breed is a pointer to the empty string. -/
theorem decode_nil_or_present_witness :
    json.Unmarshal "\x7b\"name\":\"Rex\",\"breed\":null\x7d" models.Animal.zero
      = json.Unmarshal "\x7b\"name\":\"Rex\"\x7d" models.Animal.zero ∧
    ({ models.Animal.zero with Name := "Rex" } : models.Animal)
      ≠ { models.Animal.zero with Name := "Rex", Breed := some "" } ∧
    ({ models.Animal.zero with Name := "Rex", Breed := some "" } : models.Animal).field
      models.Field.Breed = GoValue.stringPtr (some "") :=
  have h := decode_nil_or_present models.Field.Breed "breed" [("name", JSON.str "Rex")] []
    (JSON.str "") "\x7b\"name\":\"Rex\"\x7d" "\x7b\"name\":\"Rex\",\"breed\":null\x7d"
    "\x7b\"name\":\"Rex\",\"breed\":\"\"\x7d" rfl rfl
    (by
      intro kv hkv
      rw [List.mem_singleton] at hkv
      subst hkv
      decide)
    (by
      intro kv hkv
      cases hkv)
    (by
      intro h
      cases h)
    rfl rfl rfl
  ⟨h.1, h.2.2.2.1 _ _ rfl rfl, (h.2.2.1 _ rfl).2.1 "" rfl⟩

end OpenAnimalRescue
